import Mathlib

/-!
# Verification of the kops apply / nodeup run pipeline and the task dependency resolver

Shallow embedding of:
* `ApplyClusterCmd.Run` (upup/pkg/fi/cloudup/apply_cluster.go, given as src/unnamed/part_004),
* `NodeUpCommand.Run` (src/upup/pkg/fi/nodeup/command.go),
* the constant `MaxTaskDuration` (src/upup/pkg/fi/nodeup/command.go),
* the dependency resolver (topological ordering with cycle detection); the resolver's
  own source (upup/pkg/fi) is not part of the provided sources, so it is modelled
  from the specification.

External effects (cloud calls, VFS reads/writes, task execution) are represented by
oracle fields: each fallible call of the Go code is given an `Option String` input
that decides whether that call returns an error, and the embedding records which
calls were made, in order, in an event trace.
-/

namespace KopsSpec

/-- `fi.Lifecycle` values (used by apply_cluster.go lines 182-214). -/
inductive Lifecycle
  | sync
  | ignore
  | existsAndWarnIfChanges
  | existsAndValidates
  | warnIfInsufficientAccess
deriving DecidableEq, Repr

/-- Phase constants (`Phase` is a string type in Go; the switch in
apply_cluster.go handles `""`, `PhaseNetwork`, `PhaseSecurity`, `PhaseCluster`
and errors on anything else; only distinctness of the constants matters). -/
def PhaseNetwork : String := "network"

def PhaseSecurity : String := "security"

def PhaseCluster : String := "cluster"

/-- Target name constants (`TargetName` values handled by the switch in
apply_cluster.go lines 668-741; only distinctness matters to the claims). -/
def TargetDirect : String := "direct"

def TargetTerraform : String := "terraform"

def TargetCloudformation : String := "cloudformation"

def TargetDryRun : String := "dryrun"

/-- Cloud provider id strings (`kops.CloudProviderID`). -/
def CloudProviderAWS : String := "aws"

def CloudProviderGCE : String := "gce"

def CloudProviderDO : String := "digitalocean"

def CloudProviderALI : String := "alicloud"

def CloudProviderAzure : String := "azure"

def CloudProviderOpenstack : String := "openstack"

/-- Shallow embedding of the inputs of `ApplyClusterCmd.Run` (part_004 line 150).
The struct fields that steer the control flow of `Run` are kept; every fallible
external call made by `Run` is represented by an oracle field (`none` = the Go
call returns nil, `some e` = it returns error `e`). -/
structure ApplyClusterCmd where
  /-- `c.Phase` -/
  Phase : String
  /-- `c.TargetName` -/
  TargetName : String
  /-- `c.GetAssets` -/
  GetAssets : Bool
  /-- `cluster.Spec.CloudProvider` -/
  CloudProvider : String
  /-- `dns.IsGossipHostname(cluster.ObjectMeta.Name)` (lines 273, 473, 800) -/
  clusterNameIsGossip : Bool
  /-- error of `c.Clientset.InstanceGroupsFor(...).List` (lines 151-161) -/
  instanceGroupsLoadErr : Option String
  /-- collapsed oracle for the fallible steps of lines 216-658 (spec upgrade,
  version validation, config base, downgrade check, deep validation, stores,
  asset building, per-cloud checks, DNS validation, template loading, and the
  cloud-provider model-builder switch); `some e` when any of them returns
  error `e`.  None of these steps runs tasks or touches the task map. -/
  preludeErr : Option String
  /-- error of `l.BuildTasks(c.LifecycleOverrides)` (line 659) -/
  buildTasksErr : Option String
  /-- error of the `tf.AddOutputVariable` calls in the terraform case (693-705) -/
  tfAddOutputVariableErr : Option String
  /-- error of `l.FindDeletions(cloud, c.LifecycleOverrides)` (line 745) -/
  findDeletionsErr : Option String
  /-- error of `fi.NewContext(...)` (line 751) -/
  newContextErr : Option String
  /-- error of `acls.GetACL` / `WriteFile(PathKopsVersionUpdated)` (758-765) -/
  writeVersionErr : Option String
  /-- error of `registry.WriteConfigDeprecated(...)` (line 767) -/
  writeSpecErr : Option String
  /-- error of the instance-group `Update`/`WriteMirror` loop (lines 774-785) -/
  writeIGErr : Option String
  /-- error of `context.RunTasks(options)` (line 795) -/
  runTasksErr : Option String
  /-- error of `precreateDNS(ctx, cluster, cloud)` (line 805) -/
  precreateDnsErr : Option String
  /-- error of `target.Finish(c.TaskMap)` (line 810) -/
  finishErr : Option String
deriving Repr, DecidableEq

/-- `computeLifecycles` embeds apply_cluster.go lines 182-214: the switch on
`c.Phase` followed by the `c.GetAssets` override.  Returns
`(securityLifecycle, networkLifecycle, clusterLifecycle)`. -/
def computeLifecycles (c : ApplyClusterCmd) :
    Except String (Lifecycle × Lifecycle × Lifecycle) :=
  let r : Except String (Lifecycle × Lifecycle × Lifecycle) :=
    if c.Phase = "" then
      -- Everything ... the default
      .ok (.sync, .sync, .sync)
    else if c.Phase = PhaseNetwork then
      -- securityLifecycle = Ignore; clusterLifecycle = Ignore
      .ok (.ignore, .sync, .ignore)
    else if c.Phase = PhaseSecurity then
      -- networkLifecycle = ExistsAndWarnIfChanges; clusterLifecycle = Ignore
      .ok (.sync, .existsAndWarnIfChanges, .ignore)
    else if c.Phase = PhaseCluster then
      if c.TargetName = TargetDryRun then
        .ok (.existsAndWarnIfChanges, .existsAndWarnIfChanges, .sync)
      else
        .ok (.existsAndValidates, .existsAndValidates, .sync)
    else
      .error ("unknown phase " ++ c.Phase)
  match r with
  | .error e => .error e
  | .ok (s, n, cl) =>
    if c.GetAssets then .ok (.ignore, .ignore, .ignore) else .ok (s, n, cl)

/-- The concrete `fi.Target` constructed by the switch in apply_cluster.go
lines 664-741. -/
inductive TargetKind
  | gceApiTarget
  | awsApiTarget
  | doApiTarget
  | openstackApiTarget
  | aliApiTarget
  | azureApiTarget
  | terraformTarget
  | cloudformationTarget
  | dryRunTarget
deriving DecidableEq, Repr

/-- The local variables produced by apply_cluster.go lines 364 and 664-742:
`checkExisting := true` (line 364), `dryRun := false`,
`shouldPrecreateDNS := true` (665-666), then updated by the target switch. -/
structure TargetSelection where
  target : TargetKind
  checkExisting : Bool
  dryRun : Bool
  shouldPrecreateDNS : Bool
deriving DecidableEq, Repr

/-- Embeds the target-selection switch, apply_cluster.go lines 664-741.
Note: the `TargetDryRun` case (728-737) does NOT clear `checkExisting`;
only the terraform (688) and cloudformation (713) cases do. -/
def selectTarget (c : ApplyClusterCmd) : Except String TargetSelection :=
  if c.TargetName = TargetDirect then
    if c.CloudProvider = CloudProviderGCE then
      .ok ⟨.gceApiTarget, true, false, true⟩
    else if c.CloudProvider = CloudProviderAWS then
      .ok ⟨.awsApiTarget, true, false, true⟩
    else if c.CloudProvider = CloudProviderDO then
      .ok ⟨.doApiTarget, true, false, true⟩
    else if c.CloudProvider = CloudProviderOpenstack then
      .ok ⟨.openstackApiTarget, true, false, true⟩
    else if c.CloudProvider = CloudProviderALI then
      .ok ⟨.aliApiTarget, true, false, true⟩
    else if c.CloudProvider = CloudProviderAzure then
      .ok ⟨.azureApiTarget, true, false, true⟩
    else
      .error ("direct configuration not supported with CloudProvider:" ++ c.CloudProvider)
  else if c.TargetName = TargetTerraform then
    -- checkExisting = false; shouldPrecreateDNS = false
    match c.tfAddOutputVariableErr with
    | some e => .error e
    | none => .ok ⟨.terraformTarget, false, false, false⟩
  else if c.TargetName = TargetCloudformation then
    -- checkExisting = false; shouldPrecreateDNS = false
    .ok ⟨.cloudformationTarget, false, false, false⟩
  else if c.TargetName = TargetDryRun then
    -- dryRun = true; shouldPrecreateDNS = false; checkExisting stays true
    .ok ⟨.dryRunTarget, true, true, false⟩
  else
    .error ("unsupported target type " ++ c.TargetName)

/-- The externally-visible calls `ApplyClusterCmd.Run` makes after task
building, recorded in the order the Go code makes them. -/
inductive Event
  | buildTasks
  | findDeletions
  | newContext
  | writeKopsVersion
  | writeClusterSpec
  | writeInstanceGroups
  | runTasks
  | precreateDns
  | finish
  | contextClose
deriving DecidableEq, Repr

/-- Which value `c.TaskMap` holds when it is handed to `fi.NewContext` and to
`target.Finish`: the map from `l.BuildTasks` (line 659) or its replacement
from `l.FindDeletions` (line 745). -/
inductive TaskMapSource
  | builtTasks
  | deletionTasks
deriving DecidableEq, Repr

/-- The observable outcome of one `ApplyClusterCmd.Run` invocation. -/
structure ApplyOutcome where
  /-- calls made, in order -/
  events : List Event
  /-- the error `Run` returns (`none` = `Run` returned nil) -/
  err : Option String
  /-- target handed to `fi.NewContext` (line 751), when that call was made -/
  ctxTarget : Option TargetKind
  /-- task map handed to `fi.NewContext`, when that call was made -/
  ctxTaskMap : Option TaskMapSource
  /-- target whose `Finish` was called (line 810), when it was -/
  finishTarget : Option TargetKind
  /-- task map handed to `target.Finish`, when it was called -/
  finishTaskMap : Option TaskMapSource
  /-- warnings logged via `klog.Warningf` for a failed `precreateDNS`
  (line 806); other log lines are not modelled -/
  warnings : List String
deriving DecidableEq, Repr

/-- The tail of `ApplyClusterCmd.Run` from `context.RunTasks` (line 795)
onward: the run itself, the DNS pre-creation (800-808, whose failure is only
logged as a warning) and `target.Finish` (810).  `evs` holds the events
accumulated so far; `context.Close()` is deferred, so `.contextClose` is
appended on every exit. -/
def applyRunFrom (c : ApplyClusterCmd) (sel : TargetSelection)
    (clusterLifecycle : Lifecycle) (evs : List Event) (taskMap : TaskMapSource) :
    ApplyOutcome :=
  -- line 795: err = context.RunTasks(options)
  match c.runTasksErr with
  | some e =>
    ⟨evs ++ [.runTasks, .contextClose], some ("error running tasks: " ++ e),
      some sel.target, some taskMap, none, none, []⟩
  | none =>
    -- lines 800-802 (gossip clears shouldPrecreateDNS) and 804-808
    if (sel.shouldPrecreateDNS && !c.clusterNameIsGossip) && clusterLifecycle ≠ .ignore then
      match c.precreateDnsErr with
      | some e =>
        -- the precreateDNS failure is only logged (klog.Warningf, line 806)
        match c.finishErr with
        | some e' =>
          ⟨evs ++ [.runTasks, .precreateDns, .finish, .contextClose],
            some ("error closing target: " ++ e'), some sel.target, some taskMap,
            some sel.target, some taskMap,
            ["unable to pre-create DNS records - cluster startup may be slower: " ++ e]⟩
        | none =>
          ⟨evs ++ [.runTasks, .precreateDns, .finish, .contextClose],
            none, some sel.target, some taskMap, some sel.target, some taskMap,
            ["unable to pre-create DNS records - cluster startup may be slower: " ++ e]⟩
      | none =>
        match c.finishErr with
        | some e' =>
          ⟨evs ++ [.runTasks, .precreateDns, .finish, .contextClose],
            some ("error closing target: " ++ e'), some sel.target, some taskMap,
            some sel.target, some taskMap, []⟩
        | none =>
          ⟨evs ++ [.runTasks, .precreateDns, .finish, .contextClose],
            none, some sel.target, some taskMap, some sel.target, some taskMap, []⟩
    else
      match c.finishErr with
      | some e' =>
        ⟨evs ++ [.runTasks, .finish, .contextClose],
          some ("error closing target: " ++ e'), some sel.target, some taskMap,
          some sel.target, some taskMap, []⟩
      | none =>
        ⟨evs ++ [.runTasks, .finish, .contextClose],
          none, some sel.target, some taskMap, some sel.target, some taskMap, []⟩

/-- The state-store writes of `ApplyClusterCmd.Run` lines 757-786 (performed
only when `!dryRun && clusterLifecycle != fi.LifecycleIgnore`), followed by
the rest of the run. -/
def applyRunTail (c : ApplyClusterCmd) (sel : TargetSelection)
    (clusterLifecycle : Lifecycle) (evs : List Event) (taskMap : TaskMapSource) :
    ApplyOutcome :=
  if !sel.dryRun && clusterLifecycle ≠ .ignore then
    match c.writeVersionErr with
    | some e =>
      ⟨evs ++ [.writeKopsVersion, .contextClose], some e,
        some sel.target, some taskMap, none, none, []⟩
    | none =>
      match c.writeSpecErr with
      | some e =>
        ⟨evs ++ [.writeKopsVersion, .writeClusterSpec, .contextClose],
          some ("error writing completed cluster spec: " ++ e),
          some sel.target, some taskMap, none, none, []⟩
      | none =>
        match c.writeIGErr with
        | some e =>
          ⟨evs ++ [.writeKopsVersion, .writeClusterSpec, .writeInstanceGroups,
              .contextClose], some e, some sel.target, some taskMap, none, none, []⟩
        | none =>
          applyRunFrom c sel clusterLifecycle
            (evs ++ [.writeKopsVersion, .writeClusterSpec, .writeInstanceGroups])
            taskMap
  else
    applyRunFrom c sel clusterLifecycle evs taskMap

/-- Shallow embedding of `ApplyClusterCmd.Run` (part_004 lines 150-819).
Loads instance groups, computes the builder lifecycles, runs the fallible
prelude, builds the task map (659), selects the target (664-742), finds
deletions when `checkExisting` (744-749), builds the execution context (751),
writes cluster state (757-786), runs the tasks (795), pre-creates DNS
(800-808) and finishes the target (810). -/
def applyRun (c : ApplyClusterCmd) : ApplyOutcome :=
  match c.instanceGroupsLoadErr with
  | some e => ⟨[], some e, none, none, none, none, []⟩
  | none =>
    match computeLifecycles c with
    | .error e => ⟨[], some e, none, none, none, none, []⟩
    | .ok (_securityLifecycle, _networkLifecycle, clusterLifecycle) =>
      match c.preludeErr with
      | some e => ⟨[], some e, none, none, none, none, []⟩
      | none =>
        -- line 659: c.TaskMap, err = l.BuildTasks(c.LifecycleOverrides)
        match c.buildTasksErr with
        | some e => ⟨[.buildTasks], some ("error building tasks: " ++ e),
            none, none, none, none, []⟩
        | none =>
          match selectTarget c with
          | .error e => ⟨[.buildTasks], some e, none, none, none, none, []⟩
          | .ok sel =>
            -- lines 744-749: if checkExisting, c.TaskMap = l.FindDeletions(...)
            if sel.checkExisting then
              match c.findDeletionsErr with
              | some e => ⟨[.buildTasks, .findDeletions],
                  some ("error finding deletions: " ++ e), none, none, none, none, []⟩
              | none =>
                match c.newContextErr with
                | some e => ⟨[.buildTasks, .findDeletions, .newContext],
                    some ("error building context: " ++ e),
                    some sel.target, some .deletionTasks, none, none, []⟩
                | none =>
                  applyRunTail c sel clusterLifecycle
                    [.buildTasks, .findDeletions, .newContext] .deletionTasks
            else
              match c.newContextErr with
              | some e => ⟨[.buildTasks, .newContext],
                  some ("error building context: " ++ e),
                  some sel.target, some .builtTasks, none, none, []⟩
              | none =>
                applyRunTail c sel clusterLifecycle
                  [.buildTasks, .newContext] .builtTasks

/-! ## NodeUpCommand.Run (src/upup/pkg/fi/nodeup/command.go) -/

/-- Go `time` package durations, in nanoseconds (`time.Duration` is an int64
nanosecond count; `time.Hour = 60 * Minute`). -/
def Nanosecond : Nat := 1

def Microsecond : Nat := 1000 * Nanosecond

def Millisecond : Nat := 1000 * Microsecond

def Second : Nat := 1000 * Millisecond

def Minute : Nat := 60 * Second

def Hour : Nat := 60 * Minute

/-- `MaxTaskDuration` (command.go line 60):
`const MaxTaskDuration = 365 * 24 * time.Hour`. -/
def MaxTaskDuration : Nat := 365 * 24 * Hour

/-- The target constructed by the switch in command.go lines 340-353. -/
inductive NodeupTargetKind
  | localTarget
  | nodeupDryRunTarget
  | cloudInitTarget
deriving DecidableEq, Repr

/-- How one `NodeUpCommand.Run` invocation ends.  `klog.Exitf` (lines 357,
366, 371) logs and terminates the process (deferred calls do not run), which
is distinct from returning an error. -/
inductive NodeUpResult
  | success
  | errReturn (e : String)
  | fatalExit (e : String)
deriving DecidableEq, Repr

/-- True exactly for the `errReturn` outcomes. -/
def NodeUpResult.isErrReturn : NodeUpResult → Bool
  | .errReturn _ => true
  | _ => false

/-- Calls of interest made by `NodeUpCommand.Run`, in order. -/
inductive NEvent
  | loaderBuild
  | newContext
  | runTasks
  | finish
  | completeWarming
  | contextClose
deriving DecidableEq, Repr

/-- Shallow embedding of the inputs of `NodeUpCommand.Run` (command.go line
73), with oracle fields for the fallible external calls. -/
structure NodeUpCommand where
  /-- `c.ConfigLocation` -/
  ConfigLocation : String
  /-- `c.CacheDir` -/
  CacheDir : String
  /-- `c.Target` -/
  Target : String
  /-- collapsed oracle for the fallible steps of lines 77-322 (config loading
  and parsing, cluster/aux config, spec evaluation, architecture and
  distribution detection, asset store, cloud and stores, model init, AWS
  metadata); none of these steps builds or runs tasks. -/
  preludeErr : Option String
  /-- error of `loader.Build()` (line 323) -/
  loaderBuildErr : Option String
  /-- error of `fi.NewContext(...)` (line 355); on error Run calls `klog.Exitf` -/
  newContextErr : Option String
  /-- error of `context.RunTasks(options)` (line 364); on error `klog.Exitf` -/
  runTasksErr : Option String
  /-- error of `target.Finish(taskMap)` (line 369); on error `klog.Exitf` -/
  finishErr : Option String
  /-- `c.config.EnableLifecycleHook` (line 374) -/
  enableLifecycleHook : Bool
  /-- `api.CloudProviderID(c.cluster.Spec.CloudProvider) == api.CloudProviderAWS` -/
  cloudIsAWS : Bool
  /-- error of `completeWarmingLifecycleAction(...)` (line 376) -/
  completeWarmingErr : Option String
deriving Repr, DecidableEq

/-- The observable outcome of one `NodeUpCommand.Run` invocation. -/
structure NodeUpOutcome where
  events : List NEvent
  result : NodeUpResult
  /-- target handed to `fi.NewContext` (line 355) -/
  ctxTarget : Option NodeupTargetKind
  /-- target whose `Finish` was called (line 369) -/
  finishTarget : Option NodeupTargetKind
deriving DecidableEq, Repr

/-- Embeds the target switch of command.go lines 337-353: `checkExisting`
starts true; `cloudinit` clears it; anything outside
direct/dryrun/cloudinit is an error. -/
def selectNodeupTarget (targetName : String) :
    Except String (NodeupTargetKind × Bool) :=
  if targetName = "direct" then .ok (.localTarget, true)
  else if targetName = "dryrun" then .ok (.nodeupDryRunTarget, true)
  else if targetName = "cloudinit" then .ok (.cloudInitTarget, false)
  else .error ("unsupported target type " ++ targetName)

/-- Shallow embedding of `NodeUpCommand.Run` (command.go lines 73-383).
Checks ConfigLocation/CacheDir, runs the fallible prelude, builds the task
map (323), selects the target (337-353), builds the context (355, fatal on
error), runs the tasks (364, fatal on error), finishes the target (369,
fatal on error) and optionally completes the warm-pool lifecycle hook
(374-381).  `context.Close()` is deferred, so it runs on the non-fatal exits
after line 359 but not when `klog.Exitf` terminates the process. -/
def nodeUpRun (c : NodeUpCommand) : NodeUpOutcome :=
  if c.ConfigLocation = "" then
    ⟨[], .errReturn "ConfigLocation is required", none, none⟩
  else if c.CacheDir = "" then
    ⟨[], .errReturn "CacheDir is required", none, none⟩
  else
    match c.preludeErr with
    | some e => ⟨[], .errReturn e, none, none⟩
    | none =>
      -- line 323: taskMap, err = loader.Build()
      match c.loaderBuildErr with
      | some e => ⟨[.loaderBuild], .errReturn ("error building loader: " ++ e), none, none⟩
      | none =>
        match selectNodeupTarget c.Target with
        | .error e => ⟨[.loaderBuild], .errReturn e, none, none⟩
        | .ok (tgt, _checkExisting) =>
          -- line 355: context, err = fi.NewContext(...)
          match c.newContextErr with
          | some e => ⟨[.loaderBuild, .newContext],
              .fatalExit ("error building context: " ++ e), some tgt, none⟩
          | none =>
            -- line 364: err = context.RunTasks(options)
            match c.runTasksErr with
            | some e => ⟨[.loaderBuild, .newContext, .runTasks],
                .fatalExit ("error running tasks: " ++ e), some tgt, none⟩
            | none =>
              -- line 369: err = target.Finish(taskMap)
              match c.finishErr with
              | some e => ⟨[.loaderBuild, .newContext, .runTasks, .finish],
                  .fatalExit ("error closing target: " ++ e), some tgt, some tgt⟩
              | none =>
                -- lines 374-381
                if c.enableLifecycleHook && c.cloudIsAWS then
                  match c.completeWarmingErr with
                  | some e =>
                    ⟨[.loaderBuild, .newContext, .runTasks, .finish,
                        .completeWarming, .contextClose],
                      .errReturn ("failed to complete lifecylce action: " ++ e),
                      some tgt, some tgt⟩
                  | none =>
                    ⟨[.loaderBuild, .newContext, .runTasks, .finish,
                        .completeWarming, .contextClose],
                      .success, some tgt, some tgt⟩
                else
                  ⟨[.loaderBuild, .newContext, .runTasks, .finish, .contextClose],
                    .success, some tgt, some tgt⟩

/-! ## The Dependency Resolver

Modelled from the spec: the Resolver's source (the topological ordering and
cycle detection of upup/pkg/fi) is not among the provided source files; the
definitions below follow spec sections 4.2 and 8: "builds a directed graph
from tasks by inspecting each task's references to other tasks, and
topologically orders them"; "Detects cycles: if the graph cannot be fully
ordered, fail with a diagnostic naming the cycle members". -/

/-- Modelled from the spec: a task as the Resolver sees it — a name plus the
names of the tasks it depends on (field-reflected references and explicit
extra dependencies are both just dependency edges here). -/
structure TaskNode where
  name : String
  deps : List String
deriving DecidableEq, Repr

/-- A task is ready once every task it depends on has been emitted. -/
def readyToEmit (emitted : List String) (t : TaskNode) : Bool :=
  t.deps.all (fun d => emitted.contains d)

/-- Modelled from the spec: one Kahn-style elimination pass.  Each round
emits every task all of whose dependencies are already emitted; if no task
can be emitted while some remain, the graph cannot be fully ordered and the
error names the stuck (cycle) members.  `fuel` bounds the rounds, so the
function is total: graph construction always terminates. -/
def toposortAux : Nat → List TaskNode → List String → Except (List String) (List String)
  | 0, remaining, emitted =>
    if remaining.isEmpty then .ok emitted
    else .error (remaining.map (·.name))
  | fuel + 1, remaining, emitted =>
    if remaining.isEmpty then .ok emitted
    else
      let ready := remaining.filter (readyToEmit emitted)
      if ready.isEmpty then .error (remaining.map (·.name))
      else
        toposortAux fuel (remaining.filter (fun t => !readyToEmit emitted t))
          (emitted ++ ready.map (·.name))

/-- Modelled from the spec: the Resolver.  `g.length` rounds always suffice
because every successful round emits at least one task. -/
def toposort (g : List TaskNode) : Except (List String) (List String) :=
  toposortAux g.length g []

/-- The dependency edge relation: dependant `a` → dependency `b` (some task
named `a` in the set references `b`). -/
def Edge (g : List TaskNode) (a b : String) : Prop :=
  ∃ t ∈ g, t.name = a ∧ b ∈ t.deps

/-- A nonempty chain of dependency edges. -/
inductive DepPath (g : List TaskNode) : String → String → Prop
  | single {a b : String} : Edge g a b → DepPath g a b
  | cons {a b c : String} : Edge g a b → DepPath g b c → DepPath g a c

/-- A reference cycle: some task transitively depends on itself. -/
def HasCycle (g : List TaskNode) : Prop := ∃ a, DepPath g a a

/-- Every dependant appears after all of its dependencies: `order` lists the
dependency `d` strictly before the dependant's name. -/
def IsTopoOrder (g : List TaskNode) (order : List String) : Prop :=
  ∀ t ∈ g, ∀ d ∈ t.deps, [d, t.name].Sublist order

theorem DepPath.append {g : List TaskNode} {a b c : String}
    (p : DepPath g a b) (q : DepPath g b c) : DepPath g a c := by
  induction p with
  | single h => exact .cons h q
  | cons h _ ih => exact .cons h (ih q)

theorem DepPath.snoc {g : List TaskNode} {a b c : String}
    (p : DepPath g a b) (h : Edge g b c) : DepPath g a c :=
  p.append (.single h)

theorem pair_sublist_append {a b : String} {l₁ l₂ : List String}
    (ha : a ∈ l₁) (hb : b ∈ l₂) : [a, b].Sublist (l₁ ++ l₂) := by
  have h1 : [a].Sublist l₁ := List.singleton_sublist.mpr ha
  have h2 : [b].Sublist l₂ := List.singleton_sublist.mpr hb
  simpa using h1.append h2

theorem readyToEmit_mem {emitted : List String} {t : TaskNode}
    (h : readyToEmit emitted t = true) {d : String} (hd : d ∈ t.deps) :
    d ∈ emitted := by
  simp only [readyToEmit, List.all_eq_true] at h
  simpa using h d hd

/-- Soundness of the elimination pass: a successful result extends `emitted`
by a permutation of the remaining task names, and places every remaining
task strictly after each of its dependencies. -/
theorem toposortAux_ok_spec (fuel : Nat) :
    ∀ (remaining : List TaskNode) (emitted order : List String),
      toposortAux fuel remaining emitted = .ok order →
      (∃ rest, order = emitted ++ rest ∧ rest.Perm (remaining.map (·.name))) ∧
      (∀ t ∈ remaining, ∀ d ∈ t.deps, [d, t.name].Sublist order) := by
  induction fuel with
  | zero =>
    intro remaining emitted order h
    unfold toposortAux at h
    by_cases hr : remaining.isEmpty = true
    · rw [if_pos hr] at h
      have hempty : remaining = [] := List.isEmpty_iff.mp hr
      subst hempty
      refine ⟨⟨[], by simpa using (Except.ok.inj h).symm, by simp⟩, by simp⟩
    · rw [if_neg hr] at h
      exact absurd h (by simp)
  | succ fuel ih =>
    intro remaining emitted order h
    unfold toposortAux at h
    by_cases hr : remaining.isEmpty = true
    · rw [if_pos hr] at h
      have hempty : remaining = [] := List.isEmpty_iff.mp hr
      subst hempty
      refine ⟨⟨[], by simpa using (Except.ok.inj h).symm, by simp⟩, by simp⟩
    · rw [if_neg hr] at h
      by_cases hready : (remaining.filter (readyToEmit emitted)).isEmpty = true
      · rw [if_pos hready] at h
        exact absurd h (by simp)
      · rw [if_neg hready] at h
        obtain ⟨⟨rest', horder, hperm⟩, htopo'⟩ := ih _ _ _ h
        constructor
        · refine ⟨(remaining.filter (readyToEmit emitted)).map (·.name) ++ rest',
            by rw [horder, List.append_assoc], ?_⟩
          have h1 := hperm.append_left
            ((remaining.filter (readyToEmit emitted)).map (·.name))
          have h2 : ((remaining.filter (readyToEmit emitted)).map (·.name) ++
              (remaining.filter (fun t => !readyToEmit emitted t)).map (·.name)).Perm
              (remaining.map (·.name)) := by
            rw [← List.map_append]
            exact (List.filter_append_perm (readyToEmit emitted) remaining).map (·.name)
          exact h1.trans h2
        · intro t ht d hd
          by_cases hrt : readyToEmit emitted t = true
          · have hdem : d ∈ emitted := readyToEmit_mem hrt hd
            have htn : t.name ∈ (remaining.filter (readyToEmit emitted)).map (·.name) :=
              List.mem_map_of_mem _ (List.mem_filter.mpr ⟨ht, hrt⟩)
            rw [horder, List.append_assoc]
            exact pair_sublist_append hdem (List.mem_append_left _ htn)
          · have ht' : t ∈ remaining.filter (fun t => !readyToEmit emitted t) :=
              List.mem_filter.mpr ⟨ht, by simp [hrt]⟩
            exact htopo' t ht' d hd

/-- Iterating an edge-respecting step function yields dependency paths. -/
theorem depPath_iterate {g : List TaskNode} {R : List String}
    (F : {a : String // a ∈ R} → {a : String // a ∈ R})
    (hF : ∀ x, Edge g x.val (F x).val) :
    ∀ (m : Nat), 0 < m → ∀ x, DepPath g x.val (F^[m] x).val := by
  intro m
  induction m with
  | zero => intro h; exact absurd h (by simp)
  | succ m ih =>
    intro _ x
    by_cases hm : 0 < m
    · have hpath := ih hm x
      have hstep : Edge g (F^[m] x).val (F (F^[m] x)).val := hF _
      rw [Function.iterate_succ_apply']
      exact hpath.snoc hstep
    · have hm0 : m = 0 := by omega
      subst hm0
      simpa using DepPath.single (hF x)

/-- Pigeonhole: a nonempty set of names in which every name has a dependency
edge back into the set contains a cycle. -/
theorem hasCycle_of_closed (g : List TaskNode) (R : List String) (hne : R ≠ [])
    (hstep : ∀ a ∈ R, ∃ b ∈ R, Edge g a b) : HasCycle g := by
  classical
  -- a step function inside the subtype of names of R
  let α := {a : String // a ∈ R}
  have hch : ∀ x : α, ∃ b ∈ R, Edge g x.val b := fun x => hstep x.val x.property
  let F : α → α := fun x => ⟨(hch x).choose, (hch x).choose_spec.1⟩
  have hF : ∀ x : α, Edge g x.val (F x).val := fun x => (hch x).choose_spec.2
  obtain ⟨a₀, ha₀⟩ := List.exists_mem_of_ne_nil R hne
  let x₀ : α := ⟨a₀, ha₀⟩
  -- pigeonhole over the first R.length + 1 iterates
  have hmaps : ∀ n ∈ Finset.range (R.length + 1), (F^[n] x₀).val ∈ R.toFinset := by
    intro n _
    exact List.mem_toFinset.mpr (F^[n] x₀).property
  have hcard : R.toFinset.card < (Finset.range (R.length + 1)).card := by
    have := R.toFinset_card_le
    simp only [Finset.card_range]
    omega
  obtain ⟨i, hi, j, hj, hij, hfij⟩ :=
    Finset.exists_ne_map_eq_of_card_lt_of_maps_to hcard hmaps
  have hiter : F^[i] x₀ = F^[j] x₀ := Subtype.ext hfij
  -- reduce to i < j
  rcases Nat.lt_or_ge i j with hlt | hge
  · have hk : 0 < j - i := by omega
    have : F^[j - i] (F^[i] x₀) = F^[i] x₀ := by
      rw [← Function.iterate_add_apply, Nat.sub_add_cancel (by omega), ← hiter]
    have hpath := depPath_iterate F hF (j - i) hk (F^[i] x₀)
    rw [this] at hpath
    exact ⟨(F^[i] x₀).val, hpath⟩
  · have hlt : j < i := by omega
    have hk : 0 < i - j := by omega
    have : F^[i - j] (F^[j] x₀) = F^[j] x₀ := by
      rw [← Function.iterate_add_apply, Nat.sub_add_cancel (by omega), hiter]
    have hpath := depPath_iterate F hF (i - j) hk (F^[j] x₀)
    rw [this] at hpath
    exact ⟨(F^[j] x₀).val, hpath⟩

/-- Progress: with enough fuel, an acyclic graph is always fully ordered.
The invariant: every dependency of a remaining task is already emitted or
still remaining. -/
theorem toposortAux_complete (g : List TaskNode) (hacyc : ¬ HasCycle g)
    (fuel : Nat) :
    ∀ (remaining : List TaskNode) (emitted : List String),
      remaining.length ≤ fuel →
      (∀ t ∈ remaining, t ∈ g) →
      (∀ t ∈ remaining, ∀ d ∈ t.deps, d ∈ emitted ∨ d ∈ remaining.map (·.name)) →
      ∃ order, toposortAux fuel remaining emitted = .ok order := by
  induction fuel with
  | zero =>
    intro remaining emitted hlen _ _
    have hempty : remaining = [] := List.length_eq_zero.mp (by omega)
    subst hempty
    exact ⟨emitted, by simp [toposortAux]⟩
  | succ fuel ih =>
    intro remaining emitted hlen hsub hinv
    unfold toposortAux
    by_cases hr : remaining.isEmpty = true
    · exact ⟨emitted, by rw [if_pos hr]⟩
    · rw [if_neg hr]
      by_cases hready : (remaining.filter (readyToEmit emitted)).isEmpty = true
      · -- every remaining task has an unemitted dependency: that yields a cycle
        exfalso
        apply hacyc
        apply hasCycle_of_closed g (remaining.map (·.name))
        · simpa using fun h => hr (by simp [h])
        · intro a ha
          obtain ⟨t, ht, rfl⟩ := List.mem_map.mp ha
          have hnotready : readyToEmit emitted t = false := by
            by_contra hcon
            have : t ∈ remaining.filter (readyToEmit emitted) :=
              List.mem_filter.mpr ⟨ht, by simpa using hcon⟩
            rw [List.isEmpty_iff] at hready
            simp [hready] at this
          obtain ⟨d, hd, hdem⟩ : ∃ d ∈ t.deps, d ∉ emitted := by
            by_contra hcon
            push_neg at hcon
            have : readyToEmit emitted t = true := by
              simp only [readyToEmit, List.all_eq_true]
              intro d hd
              simpa using hcon d hd
            simp [this] at hnotready
          have hdR : d ∈ remaining.map (·.name) := by
            rcases hinv t ht d hd with h | h
            · exact absurd h hdem
            · exact h
          exact ⟨d, hdR, ⟨t, hsub t ht, rfl, hd⟩⟩
      · rw [if_neg hready]
        apply ih
        · -- at least one task was emitted, so the remainder is strictly smaller
          have hlen_split :
              (remaining.filter (readyToEmit emitted)).length +
                (remaining.filter (fun t => !readyToEmit emitted t)).length =
                remaining.length := by
            simpa [List.length_append]
              using (List.filter_append_perm (readyToEmit emitted) remaining).length_eq
          have hpos : 0 < (remaining.filter (readyToEmit emitted)).length := by
            rcases Nat.eq_zero_or_pos (remaining.filter (readyToEmit emitted)).length with h | h
            · exact absurd (List.isEmpty_iff.mpr (List.length_eq_zero.mp h)) (by simpa using hready)
            · exact h
          omega
        · intro t ht
          exact hsub t (List.mem_of_mem_filter ht)
        · intro t ht d hd
          have htr : t ∈ remaining := List.mem_of_mem_filter ht
          rcases hinv t htr d hd with h | h
          · exact Or.inl (List.mem_append_left _ h)
          · obtain ⟨u, hu, rfl⟩ := List.mem_map.mp h
            by_cases hru : readyToEmit emitted u = true
            · exact Or.inl (List.mem_append_right _
                (List.mem_map_of_mem _ (List.mem_filter.mpr ⟨hu, hru⟩)))
            · exact Or.inr (List.mem_map_of_mem _
                (List.mem_filter.mpr ⟨hu, by simp [hru]⟩))

/-- A set `S` of task names in which every member's task depends on another
member can never be emitted: the pass always ends in the error case, with a
nonempty list of stuck members. -/
theorem toposortAux_stuck (S : String → Prop) (hne : ∃ a, S a) (fuel : Nat) :
    ∀ (remaining : List TaskNode) (emitted : List String),
      (remaining.map (·.name)).Nodup →
      (∀ a, S a → ∃ t ∈ remaining, t.name = a) →
      (∀ a, S a → ∀ t ∈ remaining, t.name = a → ∃ d ∈ t.deps, S d) →
      (∀ a, S a → a ∉ emitted) →
      ∃ members, toposortAux fuel remaining emitted = .error members ∧ members ≠ [] := by
  -- an S-task is never ready: it has an unemitted (S-member) dependency
  have hnotready : ∀ (remaining : List TaskNode) (emitted : List String),
      (∀ a, S a → ∀ t ∈ remaining, t.name = a → ∃ d ∈ t.deps, S d) →
      (∀ a, S a → a ∉ emitted) →
      ∀ t ∈ remaining, S t.name → readyToEmit emitted t = false := by
    intro remaining emitted hclosed hdisj t ht hS
    obtain ⟨d, hd, hdS⟩ := hclosed t.name hS t ht rfl
    cases hret : readyToEmit emitted t with
    | false => rfl
    | true => exact absurd (readyToEmit_mem hret hd) (hdisj d hdS)
  induction fuel with
  | zero =>
    intro remaining emitted _ hcover _ _
    obtain ⟨a, ha⟩ := hne
    obtain ⟨t, ht, _⟩ := hcover a ha
    have hr : remaining.isEmpty = false := by
      rcases remaining with _ | _
      · simp at ht
      · simp
    refine ⟨remaining.map (·.name), by simp [toposortAux, hr], ?_⟩
    simp only [ne_eq, List.map_eq_nil_iff]
    rintro rfl
    simp at ht
  | succ fuel ih =>
    intro remaining emitted hnodup hcover hclosed hdisj
    obtain ⟨a, ha⟩ := hne
    obtain ⟨ta, hta, htaname⟩ := hcover a ha
    have hr : remaining.isEmpty = false := by
      rcases remaining with _ | _
      · simp at hta
      · simp
    unfold toposortAux
    rw [if_neg (by simp [hr])]
    by_cases hready : (remaining.filter (readyToEmit emitted)).isEmpty = true
    · rw [if_pos hready]
      refine ⟨remaining.map (·.name), rfl, ?_⟩
      simp only [ne_eq, List.map_eq_nil_iff]
      rintro rfl
      simp at hta
    · rw [if_neg hready]
      apply ih
      · have hsub : (remaining.filter (fun t => !readyToEmit emitted t)).Sublist remaining :=
          List.filter_sublist remaining
        exact hnodup.sublist (hsub.map (fun t => t.name))
      · intro b hb
        obtain ⟨t, ht, htname⟩ := hcover b hb
        refine ⟨t, List.mem_filter.mpr ⟨ht, ?_⟩, htname⟩
        have := hnotready remaining emitted hclosed hdisj t ht (htname ▸ hb)
        simp [this]
      · intro b hb t ht htname
        exact hclosed b hb t (List.mem_of_mem_filter ht) htname
      · intro b hb
        obtain ⟨t, ht, htname⟩ := hcover b hb
        have htnr := hnotready remaining emitted hclosed hdisj t ht (htname ▸ hb)
        simp only [List.mem_append, not_or]
        refine ⟨hdisj b hb, ?_⟩
        intro hmem
        obtain ⟨u, hu, huname⟩ := List.mem_map.mp hmem
        have hu' : u ∈ remaining := List.mem_of_mem_filter hu
        have hur : readyToEmit emitted u = true := (List.mem_filter.mp hu).2
        have : u = t :=
          List.inj_on_of_nodup_map hnodup hu' ht (by rw [huname, htname])
        rw [this, htnr] at hur
        exact Bool.false_ne_true hur

/-- A ranking that strictly decreases along every dependency edge rules out
cycles. -/
theorem no_cycle_of_rank {g : List TaskNode} (rank : String → Nat)
    (hrank : ∀ a b, Edge g a b → rank b < rank a) : ¬ HasCycle g := by
  have hpath : ∀ a b, DepPath g a b → rank b < rank a := by
    intro a b p
    induction p with
    | single h => exact hrank _ _ h
    | cons h _ ih => exact lt_trans ih (hrank _ _ h)
  rintro ⟨a, p⟩
  exact lt_irrefl _ (hpath a a p)

/-- C5: for every valid task set whose dependency graph has no cycles, the
Resolver produces a topological order in which every dependant task appears
after all of the tasks it depends on.  (`hwf` is the spec invariant that a
task may only reference tasks in the same collection; the produced order is
moreover a permutation of the task names.) -/
theorem resolver_produces_topological_order (g : List TaskNode)
    (hwf : ∀ t ∈ g, ∀ d ∈ t.deps, d ∈ g.map (·.name))
    (hacyc : ¬ HasCycle g) :
    ∃ order, toposort g = .ok order ∧
      order.Perm (g.map (·.name)) ∧ IsTopoOrder g order := by
  obtain ⟨order, hok⟩ := toposortAux_complete g hacyc g.length g [] le_rfl
    (fun _ ht => ht) (fun t ht d hd => Or.inr (hwf t ht d hd))
  obtain ⟨⟨rest, horder, hperm⟩, htopo⟩ := toposortAux_ok_spec g.length g [] order hok
  refine ⟨order, hok, ?_, htopo⟩
  rw [horder]
  simpa using hperm

/-- The VPC → Subnet → Instance scenario of spec section 8. -/
def demoTasks : List TaskNode :=
  [⟨"VPC", []⟩, ⟨"Subnet", ["VPC"]⟩, ⟨"Instance", ["Subnet"]⟩]

theorem demoTasks_no_cycle : ¬ HasCycle demoTasks := by
  apply no_cycle_of_rank
    (fun a => if a = "VPC" then 0 else if a = "Subnet" then 1 else 2)
  rintro a b ⟨t, ht, rfl, hd⟩
  simp only [demoTasks, List.mem_cons, List.not_mem_nil, or_false] at ht
  rcases ht with rfl | rfl | rfl <;> simp_all

/-- Witness for C5 at the concrete VPC/Subnet/Instance task set. -/
theorem resolver_produces_topological_order_witness :
    ∃ order, toposort demoTasks = .ok order ∧
      order.Perm (demoTasks.map (·.name)) ∧ IsTopoOrder demoTasks order :=
  resolver_produces_topological_order demoTasks (by decide) demoTasks_no_cycle

/-- C6: a task set containing a reference cycle always fails graph
construction (the sort is a total function, so construction terminates and
never hangs) with a nonempty diagnostic naming the stuck members; and a
task-building failure in `ApplyClusterCmd.Run` aborts before any task is
run or finished, hence before any cloud mutation. -/
theorem cycle_fails_graph_construction (g : List TaskNode)
    (hnodup : (g.map (·.name)).Nodup) (hcyc : HasCycle g) :
    (∃ members, toposort g = .error members ∧ members ≠ []) ∧
    (∀ c : ApplyClusterCmd, c.buildTasksErr ≠ none →
      Event.runTasks ∉ (applyRun c).events ∧ Event.finish ∉ (applyRun c).events) := by
  constructor
  · apply toposortAux_stuck (fun a => DepPath g a a) hcyc g.length g []
    · exact hnodup
    · intro a ha
      cases ha with
      | single h => obtain ⟨t, ht, rfl, _⟩ := h; exact ⟨t, ht, rfl⟩
      | cons h _ => obtain ⟨t, ht, rfl, _⟩ := h; exact ⟨t, ht, rfl⟩
    · intro a ha t ht htname
      cases ha with
      | single h =>
        obtain ⟨t', ht', ht'name, hmem⟩ := h
        have : t' = t := List.inj_on_of_nodup_map hnodup ht' ht (by rw [ht'name, htname])
        exact ⟨a, this ▸ hmem, .single (⟨t', ht', ht'name, hmem⟩)⟩
      | cons h q =>
        obtain ⟨t', ht', ht'name, hmem⟩ := h
        have heq : t' = t := List.inj_on_of_nodup_map hnodup ht' ht (by rw [ht'name, htname])
        exact ⟨_, heq ▸ hmem, q.snoc ⟨t', ht', ht'name, hmem⟩⟩
    · intro a _
      simp
  · intro c hbt
    cases hig : c.instanceGroupsLoadErr with
    | some e => simp [applyRun, hig]
    | none =>
      cases hlc : computeLifecycles c with
      | error e => simp [applyRun, hig, hlc]
      | ok triple =>
        obtain ⟨s, n, cl⟩ := triple
        cases hpre : c.preludeErr with
        | some e => simp [applyRun, hig, hlc, hpre]
        | none =>
          cases hbt' : c.buildTasksErr with
          | none => exact absurd hbt' hbt
          | some e => simp [applyRun, hig, hlc, hpre, hbt']

/-- A minimal two-task reference cycle: A depends on B, B depends on A. -/
def cycleTasks : List TaskNode := [⟨"A", ["B"]⟩, ⟨"B", ["A"]⟩]

theorem cycleTasks_has_cycle : HasCycle cycleTasks := by
  refine ⟨"A", .cons ⟨⟨"A", ["B"]⟩, by decide, rfl, by decide⟩
    (.single ⟨⟨"B", ["A"]⟩, by decide, rfl, by decide⟩)⟩

/-- Witness for C6 at the concrete 2-cycle. -/
theorem cycle_fails_graph_construction_witness :
    (∃ members, toposort cycleTasks = .error members ∧ members ≠ []) ∧
    (∀ c : ApplyClusterCmd, c.buildTasksErr ≠ none →
      Event.runTasks ∉ (applyRun c).events ∧ Event.finish ∉ (applyRun c).events) :=
  cycle_fails_graph_construction cycleTasks (by decide) cycleTasks_has_cycle

/-- C7: the `MaxTaskDuration` constant used by nodeup equals `365 * 24 *
time.Hour` — one (non-leap) year, i.e. 31536000 seconds of nanoseconds —
bounding the per-task retry loop at "effectively retry for a very long
time". -/
theorem maxTaskDuration_is_one_year :
    MaxTaskDuration = 365 * 24 * Hour ∧
    MaxTaskDuration = 31536000 * 1000000000 ∧
    MaxTaskDuration = 8760 * Hour := by
  refine ⟨rfl, by norm_num [MaxTaskDuration, Hour, Minute, Second, Millisecond,
    Microsecond, Nanosecond], by norm_num [MaxTaskDuration]⟩

/-- C8: the three builder lifecycles computed by `ApplyClusterCmd.Run`
(lines 182-214) as a function of Phase, target and GetAssets, in the order
(security, network, cluster). -/
theorem builder_lifecycles_table (c : ApplyClusterCmd) :
    (c.GetAssets = false →
      (c.Phase = "" →
        computeLifecycles c = .ok (.sync, .sync, .sync)) ∧
      (c.Phase = PhaseNetwork →
        computeLifecycles c = .ok (.ignore, .sync, .ignore)) ∧
      (c.Phase = PhaseSecurity →
        computeLifecycles c = .ok (.sync, .existsAndWarnIfChanges, .ignore)) ∧
      (c.Phase = PhaseCluster → c.TargetName = TargetDryRun →
        computeLifecycles c =
          .ok (.existsAndWarnIfChanges, .existsAndWarnIfChanges, .sync)) ∧
      (c.Phase = PhaseCluster → c.TargetName ≠ TargetDryRun →
        computeLifecycles c =
          .ok (.existsAndValidates, .existsAndValidates, .sync))) ∧
    (c.Phase ∉ ["", PhaseNetwork, PhaseSecurity, PhaseCluster] →
      computeLifecycles c = .error ("unknown phase " ++ c.Phase)) ∧
    (c.GetAssets = true →
      c.Phase ∈ (["", PhaseNetwork, PhaseSecurity, PhaseCluster] : List String) →
      computeLifecycles c = .ok (.ignore, .ignore, .ignore)) := by
  refine ⟨fun hga => ⟨?_, ?_, ?_, ?_, ?_⟩, ?_, ?_⟩
  · intro h; simp [computeLifecycles, h, hga]
  · intro h
    simp [computeLifecycles, h, hga, PhaseNetwork]
  · intro h
    simp [computeLifecycles, h, hga, PhaseNetwork, PhaseSecurity]
  · intro h htn
    simp [computeLifecycles, h, htn, hga, PhaseNetwork, PhaseSecurity, PhaseCluster]
  · intro h htn
    simp [computeLifecycles, h, htn, hga, PhaseNetwork, PhaseSecurity, PhaseCluster]
  · intro h
    simp only [List.mem_cons, List.not_mem_nil, or_false, not_or] at h
    obtain ⟨h1, h2, h3, h4⟩ := h
    simp [computeLifecycles, h1, h2, h3, h4]
  · intro hga h
    simp only [List.mem_cons, List.not_mem_nil, or_false] at h
    rcases h with h | h | h | h <;>
      · by_cases htn : c.TargetName = TargetDryRun <;>
          simp [computeLifecycles, h, hga, htn, PhaseNetwork, PhaseSecurity, PhaseCluster]

/-- A fully successful direct-to-AWS apply invocation, used as the witness
input for several claims. -/
def applyOkCmd : ApplyClusterCmd :=
  { Phase := "", TargetName := TargetDirect, GetAssets := false,
    CloudProvider := CloudProviderAWS, clusterNameIsGossip := false,
    instanceGroupsLoadErr := none, preludeErr := none, buildTasksErr := none,
    tfAddOutputVariableErr := none, findDeletionsErr := none,
    newContextErr := none, writeVersionErr := none, writeSpecErr := none,
    writeIGErr := none, runTasksErr := none, precreateDnsErr := none,
    finishErr := none }

/-- Witness for C8 at concrete inputs: the default phase with the direct
target, and the asset-listing mode. -/
theorem builder_lifecycles_table_witness :
    computeLifecycles applyOkCmd = .ok (.sync, .sync, .sync) ∧
    computeLifecycles { applyOkCmd with GetAssets := true } =
      .ok (.ignore, .ignore, .ignore) := by
  constructor
  · exact ((builder_lifecycles_table applyOkCmd).1 rfl).1 rfl
  · exact (builder_lifecycles_table { applyOkCmd with GetAssets := true }).2.2 rfl
      (by decide)

/-- Sanity: the fully successful direct-to-AWS run produces the full event
trace in source order and returns nil. -/
theorem applyRun_ok_trace : (applyRun applyOkCmd).events =
    [.buildTasks, .findDeletions, .newContext, .writeKopsVersion,
     .writeClusterSpec, .writeInstanceGroups, .runTasks, .precreateDns,
     .finish, .contextClose] ∧ (applyRun applyOkCmd).err = none := by decide

/-! ## Characterization lemmas for the run pipeline -/

theorem applyRunFrom_spec (c : ApplyClusterCmd) (sel : TargetSelection)
    (cl : Lifecycle) (evs : List Event) (tm : TaskMapSource) :
    (applyRunFrom c sel cl evs tm).ctxTarget = some sel.target ∧
    (applyRunFrom c sel cl evs tm).ctxTaskMap = some tm ∧
    ((c.runTasksErr ≠ none ∧
        (applyRunFrom c sel cl evs tm).events = evs ++ [.runTasks, .contextClose] ∧
        (applyRunFrom c sel cl evs tm).err ≠ none ∧
        (applyRunFrom c sel cl evs tm).finishTarget = none ∧
        (applyRunFrom c sel cl evs tm).finishTaskMap = none) ∨
      (c.runTasksErr = none ∧
        ((applyRunFrom c sel cl evs tm).events =
            evs ++ [.runTasks, .finish, .contextClose] ∨
          (applyRunFrom c sel cl evs tm).events =
            evs ++ [.runTasks, .precreateDns, .finish, .contextClose]) ∧
        (applyRunFrom c sel cl evs tm).finishTarget = some sel.target ∧
        (applyRunFrom c sel cl evs tm).finishTaskMap = some tm ∧
        ((applyRunFrom c sel cl evs tm).err = none ↔ c.finishErr = none))) := by
  unfold applyRunFrom
  repeat' split <;> try simp_all

theorem applyRunFrom_precreate (c : ApplyClusterCmd) (sel : TargetSelection)
    (cl : Lifecycle) (evs : List Event) (tm : TaskMapSource) :
    Event.precreateDns ∈ (applyRunFrom c sel cl evs tm).events ↔
      (Event.precreateDns ∈ evs ∨
        (c.runTasksErr = none ∧ sel.shouldPrecreateDNS = true ∧
          c.clusterNameIsGossip = false ∧ cl ≠ .ignore)) := by
  unfold applyRunFrom
  repeat' split <;> try simp_all

theorem applyRunFrom_precreateErr_indep (c : ApplyClusterCmd) (x : Option String)
    (sel : TargetSelection) (cl : Lifecycle) (evs : List Event) (tm : TaskMapSource) :
    (applyRunFrom { c with precreateDnsErr := x } sel cl evs tm).events =
        (applyRunFrom c sel cl evs tm).events ∧
    (applyRunFrom { c with precreateDnsErr := x } sel cl evs tm).err =
        (applyRunFrom c sel cl evs tm).err ∧
    (applyRunFrom { c with precreateDnsErr := x } sel cl evs tm).finishTarget =
        (applyRunFrom c sel cl evs tm).finishTarget := by
  unfold applyRunFrom
  repeat' split <;> try simp_all

theorem applyRunTail_spec (c : ApplyClusterCmd) (sel : TargetSelection)
    (cl : Lifecycle) (evs : List Event) (tm : TaskMapSource) :
    (¬ (sel.dryRun = false ∧ cl ≠ .ignore) ∧
      applyRunTail c sel cl evs tm = applyRunFrom c sel cl evs tm) ∨
    (sel.dryRun = false ∧ cl ≠ .ignore ∧
      (((applyRunTail c sel cl evs tm).events = evs ++ [.writeKopsVersion, .contextClose] ∨
          (applyRunTail c sel cl evs tm).events =
            evs ++ [.writeKopsVersion, .writeClusterSpec, .contextClose] ∨
          (applyRunTail c sel cl evs tm).events =
            evs ++ [.writeKopsVersion, .writeClusterSpec, .writeInstanceGroups,
              .contextClose]) ∧
        (applyRunTail c sel cl evs tm).err ≠ none ∧
        (applyRunTail c sel cl evs tm).ctxTarget = some sel.target ∧
        (applyRunTail c sel cl evs tm).ctxTaskMap = some tm ∧
        (applyRunTail c sel cl evs tm).finishTarget = none ∧
        (applyRunTail c sel cl evs tm).finishTaskMap = none ∨
        (c.writeVersionErr = none ∧ c.writeSpecErr = none ∧ c.writeIGErr = none ∧
          applyRunTail c sel cl evs tm =
            applyRunFrom c sel cl
              (evs ++ [.writeKopsVersion, .writeClusterSpec, .writeInstanceGroups])
              tm))) := by
  unfold applyRunTail
  repeat' split <;> try simp_all

/-- Exhaustive case analysis of `applyRun`: either the run aborts before
`fi.NewContext` (no context, no finish), or the target and lifecycles were
computed, `FindDeletions` ran iff `checkExisting`, and the run either stops
at a failed `NewContext` or continues as `applyRunTail`. -/
theorem applyRun_cases (c : ApplyClusterCmd) :
    ((applyRun c).err ≠ none ∧
      ((applyRun c).events = [] ∨ (applyRun c).events = [Event.buildTasks] ∨
        (applyRun c).events = [Event.buildTasks, Event.findDeletions]) ∧
      (applyRun c).ctxTarget = none ∧ (applyRun c).ctxTaskMap = none ∧
      (applyRun c).finishTarget = none ∧ (applyRun c).finishTaskMap = none) ∨
    (∃ sel s n cl, selectTarget c = .ok sel ∧ computeLifecycles c = .ok (s, n, cl) ∧
      c.instanceGroupsLoadErr = none ∧ c.preludeErr = none ∧ c.buildTasksErr = none ∧
      ∃ tm evs,
        ((sel.checkExisting = true ∧ tm = TaskMapSource.deletionTasks ∧
            c.findDeletionsErr = none ∧
            evs = [Event.buildTasks, Event.findDeletions, Event.newContext]) ∨
          (sel.checkExisting = false ∧ tm = TaskMapSource.builtTasks ∧
            evs = [Event.buildTasks, Event.newContext])) ∧
        ((c.newContextErr ≠ none ∧ (applyRun c).events = evs ∧
            (applyRun c).err ≠ none ∧
            (applyRun c).ctxTarget = some sel.target ∧
            (applyRun c).ctxTaskMap = some tm ∧
            (applyRun c).finishTarget = none ∧ (applyRun c).finishTaskMap = none) ∨
          (c.newContextErr = none ∧ applyRun c = applyRunTail c sel cl evs tm))) := by
  cases hig : c.instanceGroupsLoadErr with
  | some e => exact Or.inl (by simp [applyRun, hig])
  | none =>
    cases hlc : computeLifecycles c with
    | error e => exact Or.inl (by simp [applyRun, hig, hlc])
    | ok t =>
      obtain ⟨s, n, cl⟩ := t
      cases hpre : c.preludeErr with
      | some e => exact Or.inl (by simp [applyRun, hig, hlc, hpre])
      | none =>
        cases hbt : c.buildTasksErr with
        | some e => exact Or.inl (by simp [applyRun, hig, hlc, hpre, hbt])
        | none =>
          cases hsel : selectTarget c with
          | error e => exact Or.inl (by simp [applyRun, hig, hlc, hpre, hbt, hsel])
          | ok sel =>
            by_cases hce : sel.checkExisting = true
            · cases hfd : c.findDeletionsErr with
              | some e =>
                exact Or.inl (by simp [applyRun, hig, hlc, hpre, hbt, hsel, hce, hfd])
              | none =>
                cases hnc : c.newContextErr with
                | some e =>
                  refine Or.inr ⟨sel, s, n, cl, rfl, rfl, rfl, rfl, rfl,
                    TaskMapSource.deletionTasks,
                    [Event.buildTasks, Event.findDeletions, Event.newContext],
                    Or.inl ⟨hce, rfl, rfl, rfl⟩, Or.inl ?_⟩
                  simp [applyRun, hig, hlc, hpre, hbt, hsel, hce, hfd, hnc]
                | none =>
                  refine Or.inr ⟨sel, s, n, cl, rfl, rfl, rfl, rfl, rfl,
                    TaskMapSource.deletionTasks,
                    [Event.buildTasks, Event.findDeletions, Event.newContext],
                    Or.inl ⟨hce, rfl, rfl, rfl⟩, Or.inr ⟨rfl, ?_⟩⟩
                  simp [applyRun, hig, hlc, hpre, hbt, hsel, hce, hfd, hnc]
            · have hce' : sel.checkExisting = false := by simpa using hce
              cases hnc : c.newContextErr with
              | some e =>
                refine Or.inr ⟨sel, s, n, cl, rfl, rfl, rfl, rfl, rfl,
                  TaskMapSource.builtTasks, [Event.buildTasks, Event.newContext],
                  Or.inr ⟨hce', rfl, rfl⟩, Or.inl ?_⟩
                simp [applyRun, hig, hlc, hpre, hbt, hsel, hce', hnc]
              | none =>
                refine Or.inr ⟨sel, s, n, cl, rfl, rfl, rfl, rfl, rfl,
                  TaskMapSource.builtTasks, [Event.buildTasks, Event.newContext],
                  Or.inr ⟨hce', rfl, rfl⟩, Or.inr ⟨rfl, ?_⟩⟩
                simp [applyRun, hig, hlc, hpre, hbt, hsel, hce', hnc]

theorem selectTarget_flags (c : ApplyClusterCmd) (sel : TargetSelection)
    (hsel : selectTarget c = .ok sel) :
    (sel.checkExisting = false ↔
      (c.TargetName = TargetTerraform ∨ c.TargetName = TargetCloudformation)) ∧
    (sel.dryRun = true ↔ c.TargetName = TargetDryRun) ∧
    (sel.shouldPrecreateDNS = true ↔ c.TargetName = TargetDirect) ∧
    (c.TargetName = TargetDirect ∨ c.TargetName = TargetTerraform ∨
      c.TargetName = TargetCloudformation ∨ c.TargetName = TargetDryRun) := by
  unfold selectTarget at hsel
  repeat' split at hsel
  all_goals try cases hsel
  all_goals simp_all [TargetDirect, TargetTerraform, TargetCloudformation, TargetDryRun]

/-- `applyRunFrom` extends its event prefix by one of three concrete
suffixes. -/
theorem applyRunFrom_events_shape (c : ApplyClusterCmd) (sel : TargetSelection)
    (cl : Lifecycle) (evs : List Event) (tm : TaskMapSource) :
    ∃ suffix, (applyRunFrom c sel cl evs tm).events = evs ++ suffix ∧
      suffix ∈ ([[Event.runTasks, Event.contextClose],
        [Event.runTasks, Event.finish, Event.contextClose],
        [Event.runTasks, Event.precreateDns, Event.finish, Event.contextClose]] :
        List (List Event)) ∧
      (applyRunFrom c sel cl evs tm).ctxTarget = some sel.target ∧
      (applyRunFrom c sel cl evs tm).ctxTaskMap = some tm := by
  unfold applyRunFrom
  repeat' split
  all_goals exact ⟨_, rfl, by decide, rfl, rfl⟩

/-- Every run of the tail extends its event prefix by one of nine concrete
suffixes, and always hands the selected target and task map to the context. -/
theorem applyRunTail_events_shape (c : ApplyClusterCmd) (sel : TargetSelection)
    (cl : Lifecycle) (evs : List Event) (tm : TaskMapSource) :
    ∃ suffix, (applyRunTail c sel cl evs tm).events = evs ++ suffix ∧
      suffix ∈ ([[Event.writeKopsVersion, Event.contextClose],
        [Event.writeKopsVersion, Event.writeClusterSpec, Event.contextClose],
        [Event.writeKopsVersion, Event.writeClusterSpec, Event.writeInstanceGroups,
          Event.contextClose],
        [Event.runTasks, Event.contextClose],
        [Event.runTasks, Event.finish, Event.contextClose],
        [Event.runTasks, Event.precreateDns, Event.finish, Event.contextClose],
        [Event.writeKopsVersion, Event.writeClusterSpec, Event.writeInstanceGroups,
          Event.runTasks, Event.contextClose],
        [Event.writeKopsVersion, Event.writeClusterSpec, Event.writeInstanceGroups,
          Event.runTasks, Event.finish, Event.contextClose],
        [Event.writeKopsVersion, Event.writeClusterSpec, Event.writeInstanceGroups,
          Event.runTasks, Event.precreateDns, Event.finish, Event.contextClose]] :
        List (List Event)) ∧
      (applyRunTail c sel cl evs tm).ctxTarget = some sel.target ∧
      (applyRunTail c sel cl evs tm).ctxTaskMap = some tm := by
  unfold applyRunTail
  repeat' split
  all_goals first
    | exact ⟨_, rfl, by decide, rfl, rfl⟩
    | (obtain ⟨suffix, hev, hmem, hct, hcm⟩ := applyRunFrom_events_shape c sel cl
        (evs ++ [Event.writeKopsVersion, Event.writeClusterSpec,
          Event.writeInstanceGroups]) tm
       exact ⟨[Event.writeKopsVersion, Event.writeClusterSpec,
          Event.writeInstanceGroups] ++ suffix,
        by rw [hev, List.append_assoc], by fin_cases hmem <;> decide, hct, hcm⟩)
    | (obtain ⟨suffix, hev, hmem, hct, hcm⟩ := applyRunFrom_events_shape c sel cl evs tm
       exact ⟨suffix, hev, by fin_cases hmem <;> decide, hct, hcm⟩)

/-- The tail never emits `buildTasks`, `findDeletions` or `newContext`. -/
theorem applyRunTail_no_new_core_events (c : ApplyClusterCmd) (sel : TargetSelection)
    (cl : Lifecycle) (evs : List Event) (tm : TaskMapSource) (x : Event)
    (hx : x = Event.buildTasks ∨ x = Event.findDeletions ∨ x = Event.newContext) :
    (x ∈ (applyRunTail c sel cl evs tm).events ↔ x ∈ evs) := by
  obtain ⟨suffix, hev, hmem, -, -⟩ := applyRunTail_events_shape c sel cl evs tm
  rw [hev, List.mem_append]
  constructor
  · rintro (h | h)
    · exact h
    · exfalso
      rcases hx with rfl | rfl | rfl <;> (fin_cases hmem <;> simp_all)
  · exact Or.inl

/-- The tail emits each event at most once. -/
theorem applyRunTail_count (c : ApplyClusterCmd) (sel : TargetSelection)
    (cl : Lifecycle) (evs : List Event) (tm : TaskMapSource) (x : Event) :
    (applyRunTail c sel cl evs tm).events.count x ≤ evs.count x + 1 := by
  obtain ⟨suffix, hev, hmem, -, -⟩ := applyRunTail_events_shape c sel cl evs tm
  rw [hev, List.count_append]
  have hle : suffix.count x ≤ 1 := by
    fin_cases hmem <;> exact List.nodup_iff_count_le_one.mp (by decide) x
  omega

/-- All event traces `applyRun` can produce. -/
def applyTraces : List (List Event) :=
  [[], [.buildTasks], [.buildTasks, .findDeletions],
    [.buildTasks, .findDeletions, .newContext], [.buildTasks, .newContext]] ++
  ([[Event.buildTasks, Event.findDeletions, Event.newContext],
    [Event.buildTasks, Event.newContext]].flatMap (fun evs =>
      [[Event.writeKopsVersion, Event.contextClose],
        [Event.writeKopsVersion, Event.writeClusterSpec, Event.contextClose],
        [Event.writeKopsVersion, Event.writeClusterSpec, Event.writeInstanceGroups,
          Event.contextClose],
        [Event.runTasks, Event.contextClose],
        [Event.runTasks, Event.finish, Event.contextClose],
        [Event.runTasks, Event.precreateDns, Event.finish, Event.contextClose],
        [Event.writeKopsVersion, Event.writeClusterSpec, Event.writeInstanceGroups,
          Event.runTasks, Event.contextClose],
        [Event.writeKopsVersion, Event.writeClusterSpec, Event.writeInstanceGroups,
          Event.runTasks, Event.finish, Event.contextClose],
        [Event.writeKopsVersion, Event.writeClusterSpec, Event.writeInstanceGroups,
          Event.runTasks, Event.precreateDns, Event.finish,
          Event.contextClose]].map (fun suffix => evs ++ suffix)))

/-- Every invocation of `applyRun` produces one of the finitely many traces
of `applyTraces`. -/
theorem applyRun_trace_cases (c : ApplyClusterCmd) :
    ∃ tr ∈ applyTraces, (applyRun c).events = tr := by
  unfold applyRun applyRunTail applyRunFrom
  repeat' split
  all_goals refine ⟨_, ?_, rfl⟩
  all_goals exact of_decide_eq_true rfl

/-- All event traces `nodeUpRun` can produce. -/
def nodeupTraces : List (List NEvent) :=
  [[], [.loaderBuild], [.loaderBuild, .newContext],
    [.loaderBuild, .newContext, .runTasks],
    [.loaderBuild, .newContext, .runTasks, .finish],
    [.loaderBuild, .newContext, .runTasks, .finish, .contextClose],
    [.loaderBuild, .newContext, .runTasks, .finish, .completeWarming, .contextClose]]

/-- Every invocation of `nodeUpRun` produces one of the traces of
`nodeupTraces`. -/
theorem nodeUpRun_trace_cases (n : NodeUpCommand) :
    ∃ tr ∈ nodeupTraces, (nodeUpRun n).events = tr := by
  unfold nodeUpRun
  repeat' split
  all_goals refine ⟨_, ?_, rfl⟩
  all_goals exact of_decide_eq_true rfl

theorem applyRunFrom_runTasksErr (c : ApplyClusterCmd) (sel : TargetSelection)
    (cl : Lifecycle) (evs : List Event) (tm : TaskMapSource)
    (hc : c.runTasksErr ≠ none) :
    (applyRunFrom c sel cl evs tm).err ≠ none ∧
    (applyRunFrom c sel cl evs tm).events = evs ++ [Event.runTasks, Event.contextClose] ∧
    (applyRunFrom c sel cl evs tm).finishTarget = none := by
  rcases applyRunFrom_spec c sel cl evs tm with ⟨-, -, h | h⟩
  · exact ⟨h.2.2.1, h.2.1, h.2.2.2.1⟩
  · exact absurd h.1 hc

/-- A run that returns nil ran the tasks and finished the target: exactly one
`RunTasks`, one context, and the canonical order build → context → run →
finish → close. -/
theorem applyRun_success (c : ApplyClusterCmd) (h : (applyRun c).err = none) :
    c.runTasksErr = none ∧ c.finishErr = none ∧
    (applyRun c).events.count Event.runTasks = 1 ∧
    (applyRun c).events.count Event.newContext = 1 ∧
    (applyRun c).events.count Event.buildTasks = 1 ∧
    [Event.buildTasks, Event.newContext, Event.runTasks, Event.finish,
      Event.contextClose].Sublist (applyRun c).events := by
  rcases applyRun_cases c with ⟨he, -, -, -, -, -⟩ |
    ⟨sel, s, n', cl, hsel, hlc, -, -, -, tm, evs, hevs, hrest⟩
  · exact absurd h he
  · have hevs' : evs = [Event.buildTasks, Event.findDeletions, Event.newContext] ∨
        evs = [Event.buildTasks, Event.newContext] := by
      rcases hevs with ⟨-, -, -, h'⟩ | ⟨-, -, h'⟩
      · exact Or.inl h'
      · exact Or.inr h'
    rcases hrest with ⟨-, -, he, -, -, -, -⟩ | ⟨-, heq⟩
    · exact absurd h he
    · rw [heq] at h ⊢
      rcases applyRunTail_spec c sel cl evs tm with ⟨-, heq2⟩ |
        ⟨-, -, ⟨-, he, -, -, -, -⟩ | ⟨-, -, -, heq2⟩⟩
      · rw [heq2] at h ⊢
        rcases applyRunFrom_spec c sel cl evs tm with
          ⟨-, -, ⟨-, -, he, -, -⟩ | ⟨hrt, hevd, -, -, hiff⟩⟩
        · exact absurd h he
        · refine ⟨hrt, hiff.mp h, ?_⟩
          rcases hevs' with rfl | rfl <;> rcases hevd with h' | h' <;> rw [h'] <;> decide
      · exact absurd h he
      · rw [heq2] at h ⊢
        rcases applyRunFrom_spec c sel cl
            (evs ++ [Event.writeKopsVersion, Event.writeClusterSpec,
              Event.writeInstanceGroups]) tm with
          ⟨-, -, ⟨-, -, he, -, -⟩ | ⟨hrt, hevd, -, -, hiff⟩⟩
        · exact absurd h he
        · refine ⟨hrt, hiff.mp h, ?_⟩
          rcases hevs' with rfl | rfl <;> rcases hevd with h' | h' <;> rw [h'] <;> decide

/-- A failed `RunTasks` always fails the apply run: the returned error is
non-nil and `Finish` is never reached. -/
theorem applyRun_runTasksErr (c : ApplyClusterCmd) (hc : c.runTasksErr ≠ none) :
    (applyRun c).err ≠ none ∧ Event.finish ∉ (applyRun c).events ∧
    (applyRun c).finishTarget = none := by
  rcases applyRun_cases c with ⟨he, hev, -, -, hft, -⟩ |
    ⟨sel, s, n', cl, hsel, hlc, -, -, -, tm, evs, hevs, hrest⟩
  · refine ⟨he, ?_, hft⟩
    rcases hev with h | h | h <;> rw [h] <;> decide
  · have hevs' : evs = [Event.buildTasks, Event.findDeletions, Event.newContext] ∨
        evs = [Event.buildTasks, Event.newContext] := by
      rcases hevs with ⟨-, -, -, h'⟩ | ⟨-, -, h'⟩
      · exact Or.inl h'
      · exact Or.inr h'
    rcases hrest with ⟨-, hev, he, -, -, hft, -⟩ | ⟨-, heq⟩
    · refine ⟨he, ?_, hft⟩
      rw [hev]
      rcases hevs' with rfl | rfl <;> decide
    · rw [heq]
      rcases applyRunTail_spec c sel cl evs tm with ⟨-, heq2⟩ |
        ⟨-, -, ⟨hevt, he, -, -, hft, -⟩ | ⟨-, -, -, heq2⟩⟩
      · rw [heq2]
        obtain ⟨he, hev, hft⟩ := applyRunFrom_runTasksErr c sel cl evs tm hc
        refine ⟨he, ?_, hft⟩
        rw [hev]
        rcases hevs' with rfl | rfl <;> decide
      · refine ⟨he, ?_, hft⟩
        rcases hevt with h | h | h <;> rw [h] <;> rcases hevs' with rfl | rfl <;> decide
      · rw [heq2]
        obtain ⟨he, hev, hft⟩ := applyRunFrom_runTasksErr c sel cl
          (evs ++ [Event.writeKopsVersion, Event.writeClusterSpec,
            Event.writeInstanceGroups]) tm hc
        refine ⟨he, ?_, hft⟩
        rw [hev]
        rcases hevs' with rfl | rfl <;> decide

/-- Exhaustive case analysis of `nodeUpRun`: either the run returns an error
before the target switch, or the target was selected and each later stage
fatally exits (skipping `Finish` and the deferred `Close`) or proceeds. -/
theorem nodeUpRun_cases (n : NodeUpCommand) :
    ((∃ e, (nodeUpRun n).result = .errReturn e) ∧
      ((nodeUpRun n).events = [] ∨ (nodeUpRun n).events = [NEvent.loaderBuild]) ∧
      (nodeUpRun n).ctxTarget = none ∧ (nodeUpRun n).finishTarget = none) ∨
    (∃ tgt ce, selectNodeupTarget n.Target = .ok (tgt, ce) ∧
      ((n.newContextErr ≠ none ∧ (∃ e, (nodeUpRun n).result = .fatalExit e) ∧
          (nodeUpRun n).events = [NEvent.loaderBuild, NEvent.newContext] ∧
          (nodeUpRun n).ctxTarget = some tgt ∧ (nodeUpRun n).finishTarget = none) ∨
        (n.newContextErr = none ∧ n.runTasksErr ≠ none ∧
          (∃ e, (nodeUpRun n).result = .fatalExit e) ∧
          (nodeUpRun n).events =
            [NEvent.loaderBuild, NEvent.newContext, NEvent.runTasks] ∧
          (nodeUpRun n).ctxTarget = some tgt ∧ (nodeUpRun n).finishTarget = none) ∨
        (n.newContextErr = none ∧ n.runTasksErr = none ∧ n.finishErr ≠ none ∧
          (∃ e, (nodeUpRun n).result = .fatalExit e) ∧
          (nodeUpRun n).events =
            [NEvent.loaderBuild, NEvent.newContext, NEvent.runTasks, NEvent.finish] ∧
          (nodeUpRun n).ctxTarget = some tgt ∧
          (nodeUpRun n).finishTarget = some tgt) ∨
        (n.newContextErr = none ∧ n.runTasksErr = none ∧ n.finishErr = none ∧
          ((nodeUpRun n).result = .success ∨
            ∃ e, (nodeUpRun n).result = .errReturn e) ∧
          ((nodeUpRun n).events =
              [NEvent.loaderBuild, NEvent.newContext, NEvent.runTasks, NEvent.finish,
                NEvent.contextClose] ∨
            (nodeUpRun n).events =
              [NEvent.loaderBuild, NEvent.newContext, NEvent.runTasks, NEvent.finish,
                NEvent.completeWarming, NEvent.contextClose]) ∧
          (nodeUpRun n).ctxTarget = some tgt ∧
          (nodeUpRun n).finishTarget = some tgt))) := by
  by_cases h1 : n.ConfigLocation = ""
  · exact Or.inl (by simp [nodeUpRun, h1])
  · by_cases h2 : n.CacheDir = ""
    · exact Or.inl (by simp [nodeUpRun, h1, h2])
    · cases h3 : n.preludeErr with
      | some e => exact Or.inl (by simp [nodeUpRun, h1, h2, h3])
      | none =>
        cases h4 : n.loaderBuildErr with
        | some e => exact Or.inl (by simp [nodeUpRun, h1, h2, h3, h4])
        | none =>
          cases h5 : selectNodeupTarget n.Target with
          | error e => exact Or.inl (by simp [nodeUpRun, h1, h2, h3, h4, h5])
          | ok p =>
            obtain ⟨tgt, ce⟩ := p
            refine Or.inr ⟨tgt, ce, rfl, ?_⟩
            cases h6 : n.newContextErr with
            | some e =>
              exact Or.inl (by simp [nodeUpRun, h1, h2, h3, h4, h5, h6])
            | none =>
              cases h7 : n.runTasksErr with
              | some e =>
                exact Or.inr (Or.inl
                  (by simp [nodeUpRun, h1, h2, h3, h4, h5, h6, h7]))
              | none =>
                cases h8 : n.finishErr with
                | some e =>
                  exact Or.inr (Or.inr (Or.inl
                    (by simp [nodeUpRun, h1, h2, h3, h4, h5, h6, h7, h8])))
                | none =>
                  refine Or.inr (Or.inr (Or.inr ⟨rfl, rfl, rfl, ?_⟩))
                  by_cases h9 : n.enableLifecycleHook && n.cloudIsAWS
                  · cases h10 : n.completeWarmingErr with
                    | some e =>
                      simp [nodeUpRun, h1, h2, h3, h4, h5, h6, h7, h8, h9, h10]
                    | none =>
                      simp [nodeUpRun, h1, h2, h3, h4, h5, h6, h7, h8, h9, h10]
                  · simp [nodeUpRun, h1, h2, h3, h4, h5, h6, h7, h8, h9]

/-- nodeup: a failed `RunTasks` never reports success — the process is
terminated through `klog.Exitf` and `Finish` is never reached. -/
theorem nodeUpRun_runTasksErr (n : NodeUpCommand) (hn : n.runTasksErr ≠ none) :
    (nodeUpRun n).result ≠ .success ∧
    NEvent.finish ∉ (nodeUpRun n).events ∧
    (nodeUpRun n).finishTarget = none ∧
    (NEvent.runTasks ∈ (nodeUpRun n).events →
      ∃ e, (nodeUpRun n).result = .fatalExit e) := by
  rcases nodeUpRun_cases n with ⟨⟨e, he⟩, hev, -, hft⟩ |
    ⟨tgt, ce, -, ⟨-, ⟨e, he⟩, hev, -, hft⟩ | ⟨-, -, ⟨e, he⟩, hev, -, hft⟩ |
      ⟨-, hrt, -, -, -, -, -⟩ | ⟨-, hrt, -, -, -, -, -⟩⟩
  · refine ⟨by rw [he]; simp, ?_, hft, ?_⟩
    · rcases hev with h | h <;> rw [h] <;> decide
    · intro hmem
      rcases hev with h | h <;> rw [h] at hmem <;> exact absurd hmem (by decide)
  · exact ⟨by rw [he]; simp, by rw [hev]; decide, hft, fun _ => ⟨e, he⟩⟩
  · exact ⟨by rw [he]; simp, by rw [hev]; decide, hft, fun _ => ⟨e, he⟩⟩
  · exact absurd hrt hn
  · exact absurd hrt hn

/-- nodeup: a successful run ran the tasks and finished the target once, in
order, and closed the context last. -/
theorem nodeUpRun_success_shape (n : NodeUpCommand)
    (h : (nodeUpRun n).result = .success) :
    n.runTasksErr = none ∧ n.finishErr = none ∧
    [NEvent.loaderBuild, NEvent.newContext, NEvent.runTasks, NEvent.finish,
      NEvent.contextClose].Sublist (nodeUpRun n).events ∧
    (nodeUpRun n).events.count NEvent.runTasks = 1 ∧
    (nodeUpRun n).events.count NEvent.newContext = 1 := by
  rcases nodeUpRun_cases n with ⟨⟨e, he⟩, -, -, -⟩ |
    ⟨tgt, ce, -, ⟨-, ⟨e, he⟩, -, -, -⟩ | ⟨-, -, ⟨e, he⟩, -, -, -⟩ |
      ⟨-, -, -, ⟨e, he⟩, -, -, -⟩ | ⟨-, hrt, hfin, -, hev, -, -⟩⟩
  · rw [he] at h; exact absurd h (by simp)
  · rw [he] at h; exact absurd h (by simp)
  · rw [he] at h; exact absurd h (by simp)
  · rw [he] at h; exact absurd h (by simp)
  · refine ⟨hrt, hfin, ?_⟩
    rcases hev with h' | h' <;> rw [h'] <;> decide

/-- nodeup: an unsupported `Target` string fails before any context is
built or any task executed. -/
theorem nodeUpRun_unsupported_target (n : NodeUpCommand)
    (hn : n.Target ∉ (["direct", "dryrun", "cloudinit"] : List String)) :
    (∃ e, (nodeUpRun n).result = .errReturn e) ∧
    NEvent.runTasks ∉ (nodeUpRun n).events ∧ NEvent.finish ∉ (nodeUpRun n).events ∧
    (nodeUpRun n).ctxTarget = none ∧ (nodeUpRun n).finishTarget = none := by
  simp only [List.mem_cons, List.not_mem_nil, or_false, not_or] at hn
  obtain ⟨h1, h2, h3⟩ := hn
  rcases nodeUpRun_cases n with ⟨hres, hev, hct, hft⟩ | ⟨tgt, ce, h5, -⟩
  · refine ⟨hres, ?_, ?_, hct, hft⟩ <;>
      rcases hev with h | h <;> rw [h] <;> decide
  · rw [selectNodeupTarget, if_neg h1, if_neg h2, if_neg h3] at h5
    exact absurd h5 (by simp)

/-- nodeup: the target finished is the very target the context was built
with. -/
theorem nodeUpRun_same_target (n : NodeUpCommand) (t : NodeupTargetKind)
    (h : (nodeUpRun n).finishTarget = some t) :
    (nodeUpRun n).ctxTarget = some t ∧
    ∃ ce, selectNodeupTarget n.Target = .ok (t, ce) := by
  rcases nodeUpRun_cases n with ⟨-, -, -, hft⟩ |
    ⟨tgt, ce, hsel, ⟨-, -, -, -, hft⟩ | ⟨-, -, -, -, -, hft⟩ |
      ⟨-, -, -, -, -, hct, hft⟩ | ⟨-, -, -, -, -, hct, hft⟩⟩
  · rw [hft] at h; exact absurd h (by simp)
  · rw [hft] at h; exact absurd h (by simp)
  · rw [hft] at h; exact absurd h (by simp)
  · rw [hft] at h
    obtain rfl : tgt = t := by simpa using h
    exact ⟨hct, ce, hsel⟩
  · rw [hft] at h
    obtain rfl : tgt = t := by simpa using h
    exact ⟨hct, ce, hsel⟩

/-! ## Claim theorems -/

/-- C1 (amended): `FindDeletions(cloud, lifecycleOverrides)` is invoked, and
its resulting task map replaces the task map handed to the execution
context, if and only if `checkExisting` is true; `checkExisting` is
disabled exactly on the Terraform and CloudFormation generation targets —
it stays enabled on the pure dry-run target. -/
theorem findDeletions_iff_checkExisting (c : ApplyClusterCmd)
    (sel : TargetSelection) (hsel : selectTarget c = .ok sel)
    (s n cl : Lifecycle) (hlc : computeLifecycles c = .ok (s, n, cl))
    (hig : c.instanceGroupsLoadErr = none)
    (hpre : c.preludeErr = none) (hbt : c.buildTasksErr = none) :
    (Event.findDeletions ∈ (applyRun c).events ↔ sel.checkExisting = true) ∧
    ((applyRun c).ctxTaskMap = none ∨
      (applyRun c).ctxTaskMap =
        some (if sel.checkExisting then TaskMapSource.deletionTasks
          else TaskMapSource.builtTasks)) ∧
    (sel.checkExisting = false ↔
      (c.TargetName = TargetTerraform ∨ c.TargetName = TargetCloudformation)) := by
  refine ⟨?_, ?_, (selectTarget_flags c sel hsel).1⟩
  · by_cases hce : sel.checkExisting = true
    · cases hfd : c.findDeletionsErr with
      | some e => simp [applyRun, hig, hlc, hpre, hbt, hsel, hce, hfd]
      | none =>
        cases hnc : c.newContextErr with
        | some e => simp [applyRun, hig, hlc, hpre, hbt, hsel, hce, hfd, hnc]
        | none =>
          have hrun : applyRun c = applyRunTail c sel cl
              [Event.buildTasks, Event.findDeletions, Event.newContext]
              .deletionTasks := by
            simp [applyRun, hig, hlc, hpre, hbt, hsel, hce, hfd, hnc]
          rw [hrun,
            applyRunTail_no_new_core_events c sel cl _ _ _ (Or.inr (Or.inl rfl))]
          simp [hce]
    · have hce' : sel.checkExisting = false := by simpa using hce
      cases hnc : c.newContextErr with
      | some e => simp [applyRun, hig, hlc, hpre, hbt, hsel, hce', hnc]
      | none =>
        have hrun : applyRun c = applyRunTail c sel cl
            [Event.buildTasks, Event.newContext] .builtTasks := by
          simp [applyRun, hig, hlc, hpre, hbt, hsel, hce', hnc]
        rw [hrun,
          applyRunTail_no_new_core_events c sel cl _ _ _ (Or.inr (Or.inl rfl))]
        simp [hce']
  · by_cases hce : sel.checkExisting = true
    · cases hfd : c.findDeletionsErr with
      | some e =>
        exact Or.inl (by simp [applyRun, hig, hlc, hpre, hbt, hsel, hce, hfd])
      | none =>
        cases hnc : c.newContextErr with
        | some e =>
          exact Or.inr
            (by simp [applyRun, hig, hlc, hpre, hbt, hsel, hce, hfd, hnc])
        | none =>
          have hrun : applyRun c = applyRunTail c sel cl
              [Event.buildTasks, Event.findDeletions, Event.newContext]
              .deletionTasks := by
            simp [applyRun, hig, hlc, hpre, hbt, hsel, hce, hfd, hnc]
          obtain ⟨-, -, -, -, hcm⟩ := applyRunTail_events_shape c sel cl
            [Event.buildTasks, Event.findDeletions, Event.newContext] .deletionTasks
          rw [hrun, hcm]
          exact Or.inr (by simp [hce])
    · have hce' : sel.checkExisting = false := by simpa using hce
      cases hnc : c.newContextErr with
      | some e =>
        exact Or.inr (by simp [applyRun, hig, hlc, hpre, hbt, hsel, hce', hnc])
      | none =>
        have hrun : applyRun c = applyRunTail c sel cl
            [Event.buildTasks, Event.newContext] .builtTasks := by
          simp [applyRun, hig, hlc, hpre, hbt, hsel, hce', hnc]
        obtain ⟨-, -, -, -, hcm⟩ := applyRunTail_events_shape c sel cl
          [Event.buildTasks, Event.newContext] .builtTasks
        rw [hrun, hcm]
        exact Or.inr (by simp [hce'])

/-- A fully successful dry-run apply invocation. -/
def dryRunApplyCmd : ApplyClusterCmd := { applyOkCmd with TargetName := TargetDryRun }

/-- C1 counterexample: on the pure dry-run target `checkExisting` remains
true and `FindDeletions` IS invoked (its map is handed to the context),
contradicting the claim that deletion tasks are not computed on dry-run. -/
theorem findDeletions_on_dryrun_counterexample :
    selectTarget dryRunApplyCmd =
      .ok ⟨TargetKind.dryRunTarget, true, true, false⟩ ∧
    Event.findDeletions ∈ (applyRun dryRunApplyCmd).events ∧
    (applyRun dryRunApplyCmd).ctxTaskMap = some TaskMapSource.deletionTasks := by
  refine ⟨rfl, ?_, rfl⟩
  decide

/-- Witness for C1 at the terraform target (checkExisting disabled) and the
direct target (enabled). -/
theorem findDeletions_iff_checkExisting_witness :
    (Event.findDeletions ∉
        (applyRun { applyOkCmd with TargetName := TargetTerraform }).events) ∧
    (Event.findDeletions ∈ (applyRun applyOkCmd).events) := by
  constructor
  · intro hmem
    have h := (findDeletions_iff_checkExisting
      { applyOkCmd with TargetName := TargetTerraform }
      ⟨TargetKind.terraformTarget, false, false, false⟩ rfl
      Lifecycle.sync Lifecycle.sync Lifecycle.sync rfl rfl rfl rfl).1.mp hmem
    exact absurd h (by decide)
  · exact (findDeletions_iff_checkExisting applyOkCmd
      ⟨TargetKind.awsApiTarget, true, false, true⟩ rfl
      Lifecycle.sync Lifecycle.sync Lifecycle.sync rfl rfl rfl rfl).1.mpr rfl

/-- C2 (amended): whenever `RunTasks` returns an error, `ApplyClusterCmd.Run`
returns a non-nil error, `NodeUpCommand.Run` terminates the process through
a fatal log message (it does not return), neither ever reports success, and
`Target.Finish` is not invoked for that run. -/
theorem failed_tasks_fail_run (c : ApplyClusterCmd) (n : NodeUpCommand)
    (hc : c.runTasksErr ≠ none) (hn : n.runTasksErr ≠ none) :
    ((applyRun c).err ≠ none ∧ Event.finish ∉ (applyRun c).events ∧
      (applyRun c).finishTarget = none) ∧
    ((nodeUpRun n).result ≠ .success ∧
      (NEvent.runTasks ∈ (nodeUpRun n).events →
        ∃ e, (nodeUpRun n).result = .fatalExit e) ∧
      NEvent.finish ∉ (nodeUpRun n).events ∧
      (nodeUpRun n).finishTarget = none) := by
  obtain ⟨h1, h2, h3, h4⟩ := nodeUpRun_runTasksErr n hn
  exact ⟨applyRun_runTasksErr c hc, h1, h4, h2, h3⟩

/-- A fully successful direct nodeup invocation, for witnesses. -/
def nodeupOkCmd : NodeUpCommand :=
  { ConfigLocation := "memfs://config", CacheDir := "/cache", Target := "direct",
    preludeErr := none, loaderBuildErr := none, newContextErr := none,
    runTasksErr := none, finishErr := none, enableLifecycleHook := false,
    cloudIsAWS := true, completeWarmingErr := none }

/-- C2 counterexample: when `RunTasks` fails, `NodeUpCommand.Run` does not
return a (non-nil) error at all — the outcome is a process-terminating
`klog.Exitf`, so the claim's "NodeUpCommand.Run returns a non-nil error" is
false as stated (though no success is ever reported). -/
theorem nodeup_exits_on_runtasks_failure_counterexample :
    (nodeUpRun { nodeupOkCmd with runTasksErr := some "boom" }).result =
      .fatalExit ("error running tasks: boom") ∧
    (nodeUpRun { nodeupOkCmd with runTasksErr := some "boom" }).result.isErrReturn
      = false := by
  decide

/-- Witness for C2 at concrete failing runs. -/
theorem failed_tasks_fail_run_witness :
    (applyRun { applyOkCmd with runTasksErr := some "boom" }).err ≠ none ∧
    (nodeUpRun { nodeupOkCmd with runTasksErr := some "boom" }).result ≠
      .success := by
  have h := failed_tasks_fail_run { applyOkCmd with runTasksErr := some "boom" }
    { nodeupOkCmd with runTasksErr := some "boom" } (by decide) (by decide)
  exact ⟨h.1.1, h.2.1⟩

/-- C3: `RunTasks(options)` is called at most once per invocation, only
after the task map has been built and the Target and execution context
constructed; a run that reports success called it exactly once, with a
single context that is closed only after `Finish`; and `Finish` runs only
when `RunTasks` succeeded. -/
theorem runTasks_called_once (c : ApplyClusterCmd) (n : NodeUpCommand) :
    ((applyRun c).events.count Event.runTasks ≤ 1 ∧
      (Event.runTasks ∈ (applyRun c).events →
        [Event.buildTasks, Event.newContext, Event.runTasks].Sublist
          (applyRun c).events) ∧
      ((applyRun c).err = none →
        (applyRun c).events.count Event.runTasks = 1 ∧
        (applyRun c).events.count Event.newContext = 1 ∧
        [Event.buildTasks, Event.newContext, Event.runTasks, Event.finish,
          Event.contextClose].Sublist (applyRun c).events) ∧
      (Event.finish ∈ (applyRun c).events →
        c.runTasksErr = none ∧
        [Event.runTasks, Event.finish].Sublist (applyRun c).events)) ∧
    ((nodeUpRun n).events.count NEvent.runTasks ≤ 1 ∧
      (NEvent.runTasks ∈ (nodeUpRun n).events →
        [NEvent.loaderBuild, NEvent.newContext, NEvent.runTasks].Sublist
          (nodeUpRun n).events) ∧
      ((nodeUpRun n).result = .success →
        (nodeUpRun n).events.count NEvent.runTasks = 1 ∧
        [NEvent.loaderBuild, NEvent.newContext, NEvent.runTasks, NEvent.finish,
          NEvent.contextClose].Sublist (nodeUpRun n).events) ∧
      (NEvent.finish ∈ (nodeUpRun n).events → n.runTasksErr = none ∧
        [NEvent.runTasks, NEvent.finish].Sublist (nodeUpRun n).events)) := by
  obtain ⟨tr, htr, hev⟩ := applyRun_trace_cases c
  obtain ⟨ntr, hntr, hnev⟩ := nodeUpRun_trace_cases n
  refine ⟨⟨?_, ?_, ?_, ?_⟩, ?_, ?_, ?_, ?_⟩
  · rw [hev]; fin_cases htr <;> decide
  · rw [hev]; fin_cases htr <;> decide
  · intro h
    obtain ⟨-, -, h3, h4, -, h6⟩ := applyRun_success c h
    exact ⟨h3, h4, h6⟩
  · intro hfin
    refine ⟨?_, ?_⟩
    · by_cases hrt : c.runTasksErr = none
      · exact hrt
      · exact absurd hfin (applyRun_runTasksErr c hrt).2.1
    · rw [hev] at hfin ⊢
      fin_cases htr <;> revert hfin <;> decide
  · rw [hnev]; fin_cases hntr <;> decide
  · rw [hnev]; fin_cases hntr <;> decide
  · intro h
    obtain ⟨-, -, h3, h4, -⟩ := nodeUpRun_success_shape n h
    exact ⟨h4, h3⟩
  · intro hfin
    refine ⟨?_, ?_⟩
    · by_cases hrt : n.runTasksErr = none
      · exact hrt
      · exact absurd hfin (nodeUpRun_runTasksErr n hrt).2.1
    · rw [hnev] at hfin ⊢
      fin_cases hntr <;> revert hfin <;> decide

/-- Witness for C3 at fully successful apply and nodeup runs. -/
theorem runTasks_called_once_witness :
    (applyRun applyOkCmd).events.count Event.runTasks = 1 ∧
    [NEvent.loaderBuild, NEvent.newContext, NEvent.runTasks, NEvent.finish,
      NEvent.contextClose].Sublist (nodeUpRun nodeupOkCmd).events := by
  have h := runTasks_called_once applyOkCmd nodeupOkCmd
  exact ⟨(h.1.2.2.1 (by decide)).1, (h.2.2.2.1 (by decide)).2⟩

theorem selectTarget_unsupported (c : ApplyClusterCmd)
    (h : c.TargetName ∉ ([TargetDirect, TargetTerraform, TargetCloudformation,
      TargetDryRun] : List String)) :
    selectTarget c = .error ("unsupported target type " ++ c.TargetName) := by
  simp only [List.mem_cons, List.not_mem_nil, or_false, not_or] at h
  obtain ⟨h1, h2, h3, h4⟩ := h
  rw [selectTarget, if_neg h1, if_neg h2, if_neg h3, if_neg h4]

/-- The target in the execution context is the selected one, and `Finish`
only ever runs on that same target. -/
theorem applyRun_target_consistency (c : ApplyClusterCmd) :
    ((applyRun c).ctxTarget = none ∧ (applyRun c).finishTarget = none) ∨
    (∃ sel, selectTarget c = .ok sel ∧
      (applyRun c).ctxTarget = some sel.target ∧
      ((applyRun c).finishTarget = none ∨
        (applyRun c).finishTarget = some sel.target)) := by
  rcases applyRun_cases c with ⟨-, -, hct, -, hft, -⟩ |
    ⟨sel, s, n', cl, hsel, hlc, -, -, -, tm, evs, hevs, hrest⟩
  · exact Or.inl ⟨hct, hft⟩
  · refine Or.inr ⟨sel, hsel, ?_⟩
    rcases hrest with ⟨-, -, -, hct, -, hft, -⟩ | ⟨-, heq⟩
    · exact ⟨hct, Or.inl hft⟩
    · rw [heq]
      rcases applyRunTail_spec c sel cl evs tm with ⟨-, heq2⟩ |
        ⟨-, -, ⟨-, -, hct, -, hft, -⟩ | ⟨-, -, -, heq2⟩⟩
      · rw [heq2]
        obtain ⟨hct, -, hrest'⟩ := applyRunFrom_spec c sel cl evs tm
        rcases hrest' with ⟨-, -, -, hft, -⟩ | ⟨-, -, hft, -, -⟩
        · exact ⟨hct, Or.inl hft⟩
        · exact ⟨hct, Or.inr hft⟩
      · exact ⟨hct, Or.inl hft⟩
      · rw [heq2]
        obtain ⟨hct, -, hrest'⟩ := applyRunFrom_spec c sel cl
          (evs ++ [Event.writeKopsVersion, Event.writeClusterSpec,
            Event.writeInstanceGroups]) tm
        rcases hrest' with ⟨-, -, -, hft, -⟩ | ⟨-, -, hft, -, -⟩
        · exact ⟨hct, Or.inl hft⟩
        · exact ⟨hct, Or.inr hft⟩

/-- C4: exactly one Target back-end is selected per run from the supported
set, the same Target instance is used for the execution context and for
`Finish`, and a run invoked with an unsupported TargetName fails before any
task is executed. -/
theorem single_target_per_run (c : ApplyClusterCmd) (n : NodeUpCommand) :
    ((c.TargetName ∉ ([TargetDirect, TargetTerraform, TargetCloudformation,
          TargetDryRun] : List String) →
        (applyRun c).err ≠ none ∧ Event.runTasks ∉ (applyRun c).events ∧
        Event.finish ∉ (applyRun c).events ∧ (applyRun c).ctxTarget = none) ∧
      (∀ sel, selectTarget c = .ok sel →
        ((applyRun c).ctxTarget = none ∨
          (applyRun c).ctxTarget = some sel.target) ∧
        ((applyRun c).finishTarget = none ∨
          (applyRun c).finishTarget = some sel.target)) ∧
      (∀ t, (applyRun c).finishTarget = some t →
        (applyRun c).ctxTarget = some t)) ∧
    ((n.Target ∉ (["direct", "dryrun", "cloudinit"] : List String) →
        (∃ e, (nodeUpRun n).result = .errReturn e) ∧
        NEvent.runTasks ∉ (nodeUpRun n).events ∧
        NEvent.finish ∉ (nodeUpRun n).events ∧
        (nodeUpRun n).ctxTarget = none) ∧
      (∀ t, (nodeUpRun n).finishTarget = some t →
        (nodeUpRun n).ctxTarget = some t ∧
        ∃ ce, selectNodeupTarget n.Target = .ok (t, ce))) := by
  refine ⟨⟨?_, ?_, ?_⟩, ?_, ?_⟩
  · intro h
    have hsel := selectTarget_unsupported c h
    rcases applyRun_cases c with ⟨he, hev, hct, -, -, -⟩ |
      ⟨sel, s, n', cl, hsel', -, -, -, -, -, -, -, -⟩
    · refine ⟨he, ?_, ?_, hct⟩ <;>
        rcases hev with h' | h' | h' <;> rw [h'] <;> decide
    · rw [hsel'] at hsel
      exact absurd hsel (by simp)
  · intro sel hsel
    rcases applyRun_target_consistency c with ⟨hct, hft⟩ |
      ⟨sel', hsel', hct, hft⟩
    · exact ⟨Or.inl hct, Or.inl hft⟩
    · obtain rfl : sel' = sel := by
        have := hsel'.symm.trans hsel
        simpa using this
      exact ⟨Or.inr hct, hft⟩
  · intro t hft
    rcases applyRun_target_consistency c with ⟨-, hft'⟩ | ⟨sel', -, hct, hft'⟩
    · rw [hft'] at hft; exact absurd hft (by simp)
    · rcases hft' with h' | h'
      · rw [h'] at hft; exact absurd hft (by simp)
      · rw [h'] at hft
        obtain rfl : sel'.target = t := by simpa using hft
        exact hct
  · intro h
    obtain ⟨h1, h2, h3, h4, -⟩ := nodeUpRun_unsupported_target n h
    exact ⟨h1, h2, h3, h4⟩
  · exact nodeUpRun_same_target n

/-- Witness for C4: an unsupported target name fails both runs up front;
the successful direct runs use the selected target for context and finish. -/
theorem single_target_per_run_witness :
    (applyRun { applyOkCmd with TargetName := "foo" }).err ≠ none ∧
    Event.runTasks ∉ (applyRun { applyOkCmd with TargetName := "foo" }).events ∧
    (∃ e, (nodeUpRun { nodeupOkCmd with Target := "xyz" }).result =
      .errReturn e) ∧
    (applyRun applyOkCmd).ctxTarget = some TargetKind.awsApiTarget := by
  have h1 := (single_target_per_run { applyOkCmd with TargetName := "foo" }
    { nodeupOkCmd with Target := "xyz" })
  have h2 := (single_target_per_run applyOkCmd nodeupOkCmd).1.2.1
    ⟨TargetKind.awsApiTarget, true, false, true⟩ rfl
  refine ⟨(h1.1.1 (by decide)).1, (h1.1.1 (by decide)).2.1,
    (h1.2.1 (by decide)).1, ?_⟩
  rcases h2.1 with h | h
  · exact absurd h (by decide)
  · exact h

/-- C9: the kops-version marker, the completed cluster spec and the
instance-group mirror are written only when the run is not a dry-run and the
cluster lifecycle is not Ignore; every such write happens before `RunTasks`;
and on a dry-run (or Ignore cluster lifecycle) none of them happens at
all. -/
theorem state_store_writes_gated (c : ApplyClusterCmd) :
    (∀ x ∈ ([Event.writeKopsVersion, Event.writeClusterSpec,
        Event.writeInstanceGroups] : List Event),
      (x ∈ (applyRun c).events →
        ∃ sel s n cl, selectTarget c = .ok sel ∧
          computeLifecycles c = .ok (s, n, cl) ∧
          sel.dryRun = false ∧ cl ≠ Lifecycle.ignore) ∧
      (x ∈ (applyRun c).events → Event.runTasks ∈ (applyRun c).events →
        [x, Event.runTasks].Sublist (applyRun c).events)) ∧
    (∀ sel s n cl, selectTarget c = .ok sel →
      computeLifecycles c = .ok (s, n, cl) →
      (sel.dryRun = true ∨ cl = Lifecycle.ignore) →
      ∀ x ∈ ([Event.writeKopsVersion, Event.writeClusterSpec,
          Event.writeInstanceGroups] : List Event),
        x ∉ (applyRun c).events) := by
  have hwx : ∀ (x : Event), x ∈ ([Event.writeKopsVersion, Event.writeClusterSpec,
      Event.writeInstanceGroups] : List Event) →
      x = Event.writeKopsVersion ∨ x = Event.writeClusterSpec ∨
        x = Event.writeInstanceGroups := by
    intro x hx
    simpa using hx
  constructor
  · intro x hx
    constructor
    · intro hmem
      rcases applyRun_cases c with ⟨-, hev, -, -, -, -⟩ |
        ⟨sel, s, n', cl, hsel, hlc, -, -, -, tm, evs, hevs, hrest⟩
      · exfalso
        rcases hwx x hx with rfl | rfl | rfl <;>
          rcases hev with h' | h' | h' <;> rw [h'] at hmem <;>
          exact absurd hmem (by decide)
      · have hevs' : evs = [Event.buildTasks, Event.findDeletions,
            Event.newContext] ∨ evs = [Event.buildTasks, Event.newContext] := by
          rcases hevs with ⟨-, -, -, h'⟩ | ⟨-, -, h'⟩
          · exact Or.inl h'
          · exact Or.inr h'
        rcases hrest with ⟨-, hev, -, -, -, -, -⟩ | ⟨-, heq⟩
        · exfalso
          rw [hev] at hmem
          rcases hwx x hx with rfl | rfl | rfl <;>
            rcases hevs' with rfl | rfl <;> exact absurd hmem (by decide)
        · rcases applyRunTail_spec c sel cl evs tm with ⟨hgate, heq2⟩ |
            ⟨hdr, hcl, -⟩
          · exfalso
            rw [heq, heq2] at hmem
            obtain ⟨suffix, hev', hsfx, -, -⟩ :=
              applyRunFrom_events_shape c sel cl evs tm
            rw [hev'] at hmem
            rcases List.mem_append.mp hmem with h' | h'
            · rcases hwx x hx with rfl | rfl | rfl <;>
                rcases hevs' with rfl | rfl <;> exact absurd h' (by decide)
            · rcases hwx x hx with rfl | rfl | rfl <;>
                fin_cases hsfx <;> exact absurd h' (by decide)
          · exact ⟨sel, s, n', cl, hsel, hlc, hdr, hcl⟩
    · intro hmem hrt
      obtain ⟨tr, htr, hev⟩ := applyRun_trace_cases c
      rw [hev] at hmem hrt ⊢
      rcases hwx x hx with rfl | rfl | rfl <;>
        (revert hmem hrt; fin_cases htr <;> decide)
  · intro sel s n' cl hsel hlc hgate x hx
    intro hmem
    rcases applyRun_cases c with ⟨-, hev, -, -, -, -⟩ |
      ⟨sel', s', n'', cl', hsel', hlc', -, -, -, tm, evs, hevs, hrest⟩
    · rcases hwx x hx with rfl | rfl | rfl <;>
        rcases hev with h' | h' | h' <;> rw [h'] at hmem <;>
        exact absurd hmem (by decide)
    · obtain rfl : sel = sel' := by simpa using hsel.symm.trans hsel'
      obtain ⟨rfl, rfl, rfl⟩ : s = s' ∧ n' = n'' ∧ cl = cl' := by
        simpa using hlc.symm.trans hlc'
      have hevs' : evs = [Event.buildTasks, Event.findDeletions,
          Event.newContext] ∨ evs = [Event.buildTasks, Event.newContext] := by
        rcases hevs with ⟨-, -, -, h'⟩ | ⟨-, -, h'⟩
        · exact Or.inl h'
        · exact Or.inr h'
      rcases hrest with ⟨-, hev, -, -, -, -, -⟩ | ⟨-, heq⟩
      · rw [hev] at hmem
        rcases hwx x hx with rfl | rfl | rfl <;>
          rcases hevs' with rfl | rfl <;> exact absurd hmem (by decide)
      · rcases applyRunTail_spec c sel cl evs tm with ⟨-, heq2⟩ |
          ⟨hdr, hcl, -⟩
        · rw [heq, heq2] at hmem
          obtain ⟨suffix, hev', hsfx, -, -⟩ :=
            applyRunFrom_events_shape c sel cl evs tm
          rw [hev'] at hmem
          rcases List.mem_append.mp hmem with h' | h'
          · rcases hwx x hx with rfl | rfl | rfl <;>
              rcases hevs' with rfl | rfl <;> exact absurd h' (by decide)
          · rcases hwx x hx with rfl | rfl | rfl <;>
              fin_cases hsfx <;> exact absurd h' (by decide)
        · rcases hgate with h' | h'
          · rw [h'] at hdr; exact absurd hdr (by decide)
          · exact absurd h' hcl

/-- Witness for C9: on the dry-run target no state-store write happens; on
the successful direct run the version write precedes `RunTasks`. -/
theorem state_store_writes_gated_witness :
    Event.writeKopsVersion ∉ (applyRun dryRunApplyCmd).events ∧
    [Event.writeKopsVersion, Event.runTasks].Sublist
      (applyRun applyOkCmd).events := by
  constructor
  · exact (state_store_writes_gated dryRunApplyCmd).2
      ⟨TargetKind.dryRunTarget, true, true, false⟩
      Lifecycle.sync Lifecycle.sync Lifecycle.sync rfl rfl (Or.inl rfl)
      Event.writeKopsVersion (by decide)
  · exact ((state_store_writes_gated applyOkCmd).1
      Event.writeKopsVersion (by decide)).2 (by decide) (by decide)

/-- Two commands that agree on everything `applyRunFrom` reads except the
`precreateDNS` oracle produce the same error, events and finished target. -/
theorem applyRunFrom_congr (c₁ c₂ : ApplyClusterCmd)
    (hrt : c₁.runTasksErr = c₂.runTasksErr) (hfin : c₁.finishErr = c₂.finishErr)
    (hgos : c₁.clusterNameIsGossip = c₂.clusterNameIsGossip)
    (sel : TargetSelection) (cl : Lifecycle) (evs : List Event)
    (tm : TaskMapSource) :
    (applyRunFrom c₁ sel cl evs tm).err = (applyRunFrom c₂ sel cl evs tm).err ∧
    (applyRunFrom c₁ sel cl evs tm).events =
      (applyRunFrom c₂ sel cl evs tm).events ∧
    (applyRunFrom c₁ sel cl evs tm).finishTarget =
      (applyRunFrom c₂ sel cl evs tm).finishTarget := by
  unfold applyRunFrom
  rw [hrt, hfin, hgos]
  repeat' split
  all_goals exact ⟨rfl, rfl, rfl⟩

theorem applyRunTail_congr (c₁ c₂ : ApplyClusterCmd)
    (hwv : c₁.writeVersionErr = c₂.writeVersionErr)
    (hws : c₁.writeSpecErr = c₂.writeSpecErr)
    (hwig : c₁.writeIGErr = c₂.writeIGErr)
    (hrt : c₁.runTasksErr = c₂.runTasksErr) (hfin : c₁.finishErr = c₂.finishErr)
    (hgos : c₁.clusterNameIsGossip = c₂.clusterNameIsGossip)
    (sel : TargetSelection) (cl : Lifecycle) (evs : List Event)
    (tm : TaskMapSource) :
    (applyRunTail c₁ sel cl evs tm).err = (applyRunTail c₂ sel cl evs tm).err ∧
    (applyRunTail c₁ sel cl evs tm).events =
      (applyRunTail c₂ sel cl evs tm).events ∧
    (applyRunTail c₁ sel cl evs tm).finishTarget =
      (applyRunTail c₂ sel cl evs tm).finishTarget := by
  unfold applyRunTail
  rw [hwv, hws, hwig]
  repeat' split
  all_goals first
    | exact applyRunFrom_congr c₁ c₂ hrt hfin hgos sel cl _ tm
    | simp_all

/-- The run's error, events and finished target never depend on whether
`precreateDNS` failed. -/
theorem applyRun_precreateErr_indep (c : ApplyClusterCmd) (x : Option String) :
    (applyRun { c with precreateDnsErr := x }).err = (applyRun c).err ∧
    (applyRun { c with precreateDnsErr := x }).events = (applyRun c).events ∧
    (applyRun { c with precreateDnsErr := x }).finishTarget =
      (applyRun c).finishTarget := by
  have h1 : computeLifecycles { c with precreateDnsErr := x } =
      computeLifecycles c := rfl
  have h2 : selectTarget { c with precreateDnsErr := x } = selectTarget c := rfl
  simp only [applyRun, h1, h2]
  repeat' split
  all_goals first
    | (refine applyRunTail_congr _ c ?_ ?_ ?_ ?_ ?_ ?_ _ _ _ _ <;> rfl)
    | simp_all

/-- C10: a failure of DNS pre-creation never fails the run — the returned
error, the event trace and the finished target are the same whatever
`precreateDNS` returns, and the run continues to `Finish`; moreover
`precreateDNS` is attempted only when the target is the direct cloud API,
the cluster name is not a gossip hostname, the cluster lifecycle is not
Ignore, and `RunTasks` succeeded. -/
theorem precreateDNS_failure_never_fails_run (c : ApplyClusterCmd) :
    (∀ x, (applyRun { c with precreateDnsErr := x }).err = (applyRun c).err ∧
      (applyRun { c with precreateDnsErr := x }).events = (applyRun c).events ∧
      (applyRun { c with precreateDnsErr := x }).finishTarget =
        (applyRun c).finishTarget) ∧
    (Event.precreateDns ∈ (applyRun c).events →
      c.TargetName = TargetDirect ∧ c.clusterNameIsGossip = false ∧
      c.runTasksErr = none ∧
      (∀ s n cl, computeLifecycles c = .ok (s, n, cl) →
        cl ≠ Lifecycle.ignore) ∧
      Event.finish ∈ (applyRun c).events ∧
      [Event.precreateDns, Event.finish].Sublist (applyRun c).events) := by
  refine ⟨fun x => applyRun_precreateErr_indep c x, ?_⟩
  intro hmem
  obtain ⟨tr, htr, hev⟩ := applyRun_trace_cases c
  have hpure : Event.finish ∈ (applyRun c).events ∧
      [Event.precreateDns, Event.finish].Sublist (applyRun c).events := by
    rw [hev] at hmem ⊢
    revert hmem
    fin_cases htr <;> decide
  rcases applyRun_cases c with ⟨-, hevd, -, -, -, -⟩ |
    ⟨sel, s', n', cl', hsel, hlc, -, -, -, tm, evs, hevs, hrest⟩
  · exfalso
    rcases hevd with h' | h' | h' <;> rw [h'] at hmem <;>
      exact absurd hmem (by decide)
  · have hevs' : evs = [Event.buildTasks, Event.findDeletions,
        Event.newContext] ∨ evs = [Event.buildTasks, Event.newContext] := by
      rcases hevs with ⟨-, -, -, h'⟩ | ⟨-, -, h'⟩
      · exact Or.inl h'
      · exact Or.inr h'
    have main : c.runTasksErr = none ∧ sel.shouldPrecreateDNS = true ∧
        c.clusterNameIsGossip = false ∧ cl' ≠ Lifecycle.ignore := by
      rcases hrest with ⟨-, hevd, -, -, -, -, -⟩ | ⟨-, heq⟩
      · exfalso
        rw [hevd] at hmem
        rcases hevs' with rfl | rfl <;> exact absurd hmem (by decide)
      · rcases applyRunTail_spec c sel cl' evs tm with ⟨-, heq2⟩ |
          ⟨-, -, ⟨hevt, -, -, -, -, -⟩ | ⟨-, -, -, heq2⟩⟩
        · rw [heq, heq2] at hmem
          rcases (applyRunFrom_precreate c sel cl' evs tm).mp hmem with h' | h'
          · exfalso
            rcases hevs' with rfl | rfl <;> exact absurd h' (by decide)
          · exact h'
        · exfalso
          rw [heq] at hmem
          rcases hevt with h' | h' | h' <;> rw [h'] at hmem <;>
            rcases List.mem_append.mp hmem with h'' | h'' <;>
            rcases hevs' with rfl | rfl <;> exact absurd h'' (by decide)
        · rw [heq, heq2] at hmem
          rcases (applyRunFrom_precreate c sel cl'
              (evs ++ [Event.writeKopsVersion, Event.writeClusterSpec,
                Event.writeInstanceGroups]) tm).mp hmem with h' | h'
          · exfalso
            rcases hevs' with rfl | rfl <;> exact absurd h' (by decide)
          · exact h'
    obtain ⟨hrt, hpd, hgos, hcl⟩ := main
    refine ⟨(selectTarget_flags c sel hsel).2.2.1.mp hpd, hgos, hrt, ?_, hpure⟩
    intro s n cl hlc2
    obtain ⟨rfl, rfl, rfl⟩ : s = s' ∧ n = n' ∧ cl = cl' := by
      simpa using hlc2.symm.trans hlc
    exact hcl

/-- Witness for C10: a failing precreateDNS on the direct target leaves the
run's error and trace unchanged, and the pre-creation was attempted. -/
theorem precreateDNS_failure_never_fails_run_witness :
    (applyRun { applyOkCmd with precreateDnsErr := some "dns down" }).err =
      (applyRun applyOkCmd).err ∧
    applyOkCmd.TargetName = TargetDirect ∧
    Event.finish ∈ (applyRun applyOkCmd).events := by
  have h := precreateDNS_failure_never_fails_run applyOkCmd
  have h2 := h.2 (by decide)
  exact ⟨(h.1 (some "dns down")).1, h2.1, h2.2.2.2.2.1⟩

end KopsSpec
